import Mathlib

/-!
# Verification of the daimon comment / settings / sources backend

Shallow embedding of the Convex backend functions of the daimon repository
(`src/convex/comments.ts`, `src/convex/documentSettings.ts`,
`src/convex/sources.ts`, `src/convex/aiAgent.ts`, and the node action file
holding `indexSource` / `cleanupRagEntries`).

Database tables are modelled as association lists `List (Nat × row)`;
`ctx.db.get` is `findVal`, `ctx.db.patch` is `updateVal` (field updates are
spelled out per call site exactly as the source patches them),
`ctx.db.delete` is `eraseKey`, `ctx.db.insert` appends with a fresh id drawn
from a `nextId` counter.  `getAuthUserId` results are passed in as an
`Option Nat` argument, `Date.now()` as an explicit `now : Nat` argument, and
mutations return `Except String _` mirroring `throw new Error(...)`.
JavaScript numbers used for temperature / maxSteps are modelled as `Rat`.
Background actions (`generateAIResponse`, `generateReply`, `indexSource`)
are split at their external-call boundary: `startGenJob` performs the
mutations up to and including the external `generateText` invocation (which
is recorded in a `genCalls` trace), and `finishGenSuccess` /
`finishGenError` perform the mutations after it returns or throws.
-/

namespace Daimon

/-- Association-list lookup, first binding wins (models `ctx.db.get`). -/
def findVal {α : Type} : List (Nat × α) → Nat → Option α
  | [], _ => none
  | (k, v) :: rest, key => if k = key then some v else findVal rest key

/-- Update every binding of a key in place (models `ctx.db.patch`). -/
def updateVal {α : Type} : List (Nat × α) → Nat → (α → α) → List (Nat × α)
  | [], _, _ => []
  | (k, v) :: rest, key, f =>
    if k = key then (k, f v) :: updateVal rest key f
    else (k, v) :: updateVal rest key f

/-- Remove all bindings of a key (models `ctx.db.delete`). -/
def eraseKey {α : Type} : List (Nat × α) → Nat → List (Nat × α)
  | [], _ => []
  | (k, v) :: rest, key =>
    if k = key then eraseKey rest key else (k, v) :: eraseKey rest key

/-- `documents` table row (src/convex/schema.ts). -/
structure Document where
  title : String
  content : String
  ownerId : Nat
  updatedAt : Nat
  deriving Repr, DecidableEq

/-- Comment status union from src/convex/comments.ts. -/
inductive CStatus
  | pending
  | streaming
  | complete
  | error
  deriving Repr, DecidableEq

/-- Message role union from src/convex/comments.ts. -/
inductive Role
  | user
  | assistant
  deriving Repr, DecidableEq

/-- `comments` table row. -/
structure Comment where
  documentId : Nat
  commentId : String
  selectedText : String
  status : CStatus
  ownerId : Nat
  createdAt : Nat
  resolvedAt : Option Nat
  deriving Repr, DecidableEq

/-- `commentMessages` table row (row ids are irrelevant to every query the
claims touch, so messages are kept as an append-only list). -/
structure Msg where
  commentId : Nat
  role : Role
  content : String
  createdAt : Nat
  deriving Repr, DecidableEq

/-- Provider discriminator from src/convex/documentSettings.ts. -/
inductive Provider
  | anthropic
  | openai
  deriving Repr, DecidableEq

/-- Tool-enablement record from src/convex/documentSettings.ts. -/
structure ToolFlags where
  searchSources : Bool
  webSearch : Bool
  citation : Bool
  deriving Repr, DecidableEq

/-- `documentSettings` table row. -/
structure SettingsRow where
  documentId : Nat
  ownerId : Nat
  model : String
  provider : Provider
  temperature : Rat
  maxSteps : Rat
  systemPrompt : String
  description : Option String
  tools : ToolFlags
  updatedAt : Nat
  deriving Repr, DecidableEq

/-- The `DocumentSettings` type of src/convex/aiAgent.ts (input of
`createDaimonAgent`, output shape of `documentSettings.getInternal`). -/
structure DocumentSettingsData where
  model : String
  provider : Provider
  temperature : Rat
  maxSteps : Rat
  systemPrompt : String
  description : Option String
  tools : ToolFlags
  deriving Repr, DecidableEq

/-- Result shape of the `documentSettings.get` query. -/
structure SettingsView where
  id : Option Nat
  documentId : Nat
  model : String
  provider : Provider
  temperature : Rat
  maxSteps : Rat
  systemPrompt : String
  description : Option String
  tools : ToolFlags
  hasCustomSettings : Bool
  deriving Repr, DecidableEq

/-- `DEFAULT_SYSTEM_PROMPT` from src/convex/aiAgent.ts. -/
def DEFAULT_SYSTEM_PROMPT : String :=
  "You are Daimon, a thoughtful writing companion—a guiding spirit for serious writers and bloggers.\n\nYour role is to be a whisper, not a shout. You never write for users or suggest specific phrasing. Instead, you prompt with ideas and point toward source material they might explore.\n\nWhen a user highlights text and summons you:\n\n1. **If the text is a question or prompt** (contains \"?\", starts with action words like \"help\", \"what\", \"how\", \"should\", \"can you\", etc.):\n   - Respond helpfully to their question\n   - Offer perspective, considerations, or references\n   - Ask clarifying questions if the request is ambiguous\n   - If the question relates to their research or source materials, use the searchSources tool to find relevant context\n\n2. **If the text is their writing**:\n   - Offer observations about what you notice (not prescriptions)\n   - Ask questions that might deepen their thinking\n   - Point toward themes, tensions, or possibilities you see\n   - Suggest areas they might want to explore further\n   - Reference relevant concepts, authors, or works if appropriate\n   - If relevant, search their attached sources to connect their writing to their research\n\nGuidelines:\n- Be concise but insightful—a margin note, not an essay\n- Match your tone to their writing style\n- Honor their voice; don\x27t impose your own\n- When uncertain, ask rather than assume\n- Offer one or two focused thoughts rather than a list\n- You are a creative partner, not a critic or editor\n- You have access to the writer\x27s attached source materials (research documents, PDFs, etc.)—use them when relevant to provide grounded insights\n- When using the searchSources tool, always pass the documentId from the context provided at the start of the conversation"

/-- `DEFAULT_SETTINGS` from src/convex/documentSettings.ts (its
`systemPrompt` fallback is `DEFAULT_SYSTEM_PROMPT`, supplied at use sites
exactly as the source does). -/
structure DefaultSettingsT where
  model : String
  provider : Provider
  temperature : Rat
  maxSteps : Rat
  tools : ToolFlags
  deriving Repr, DecidableEq

def DEFAULT_SETTINGS : DefaultSettingsT :=
  { model := "claude-sonnet-4-5-20250826"
    provider := .anthropic
    temperature := mkRat 7 10
    maxSteps := 5
    tools := { searchSources := true, webSearch := false, citation := false } }

/-- Configuration an `Agent` is constructed with in src/convex/aiAgent.ts:
the language model (provider + model string), the instruction string, the
call temperature, the step limit and the names of the included tools. -/
structure AgentConfig where
  provider : Provider
  model : String
  instructions : String
  temperature : Rat
  maxSteps : Rat
  tools : List String
  deriving Repr, DecidableEq

/-- Tool list built by `createDaimonAgent` from the enablement booleans
(insertion order follows the source: searchSources, webSearch, citation). -/
def toolsFor (t : ToolFlags) : List String :=
  (if t.searchSources then ["searchSources"] else []) ++
    (if t.webSearch then ["webSearch"] else []) ++
    (if t.citation then ["citation"] else [])

/-- `createDaimonAgent` from src/convex/aiAgent.ts: the per-document agent
factory. -/
def createDaimonAgent (settings : DocumentSettingsData) : AgentConfig :=
  { provider := settings.provider
    model := settings.model
    instructions :=
      match settings.description with
      | some d => settings.systemPrompt ++ "\n\n[Document Context: " ++ d ++ "]"
      | none => settings.systemPrompt
    temperature := settings.temperature
    maxSteps := settings.maxSteps
    tools := toolsFor settings.tools }

/-- The module-level default `daimon` agent of src/convex/aiAgent.ts. -/
def daimon : AgentConfig :=
  { provider := .anthropic
    model := "claude-sonnet-4-5-20250929"
    instructions := DEFAULT_SYSTEM_PROMPT
    temperature := mkRat 7 10
    maxSteps := 5
    tools := ["searchSources"] }

/-- A scheduled generation job (`ctx.scheduler.runAfter(0, ...)` target in
src/convex/comments.ts): either `internal.comments.generateAIResponse` or
`internal.comments.generateReply`, with the scheduled arguments. -/
inductive GenJob
  | genInitial (commentDbId documentId : Nat) (selectedText : String) (userId : Nat)
  | genReply (commentDbId documentId : Nat) (userId : Nat)
  deriving Repr, DecidableEq

def GenJob.commentDbId : GenJob → Nat
  | .genInitial c _ _ _ => c
  | .genReply c _ _ => c

/-- A generation action whose external `generateText` call is in flight. -/
structure RunningJob where
  commentDbId : Nat
  deriving Repr, DecidableEq

/-- A recorded invocation of the external generation service. -/
structure GenCall where
  config : AgentConfig
  prompt : String
  deriving Repr, DecidableEq

/-- State of the comment / settings part of the backend. -/
structure CommentsState where
  documents : List (Nat × Document)
  settingsRows : List (Nat × SettingsRow)
  comments : List (Nat × Comment)
  messages : List Msg
  genJobs : List GenJob
  running : List RunningJob
  genCalls : List GenCall
  nextId : Nat
  deriving Repr, DecidableEq

/-- Messages of one comment in insertion order
(`withIndex("by_commentId")...collect()`). -/
def msgsOf : List Msg → Nat → List Msg
  | [], _ => []
  | m :: rest, cid =>
    if m.commentId = cid then m :: msgsOf rest cid else msgsOf rest cid

/-- Unresolved comments of one document, in insertion order
(`withIndex("by_documentId")` plus the `resolvedAt = undefined` filter used
by `listByDocument` and `countByDocument`). -/
def unresolvedOf : List (Nat × Comment) → Nat → List (Nat × Comment)
  | [], _ => []
  | (k, c) :: rest, d =>
    if c.documentId = d ∧ c.resolvedAt = none then
      (k, c) :: unresolvedOf rest d
    else unresolvedOf rest d

/-- `comments.listByDocument` query: auth check, ownership check, unresolved
comments of the document each paired with its messages. -/
def listByDocument (st : CommentsState) (auth : Option Nat) (documentId : Nat) :
    List (Nat × Comment × List Msg) :=
  match auth with
  | none => []
  | some userId =>
    match findVal st.documents documentId with
    | none => []
    | some document =>
      if document.ownerId ≠ userId then []
      else
        (unresolvedOf st.comments documentId).map
          (fun p => (p.1, p.2, msgsOf st.messages p.1))

/-- `comments.countByDocument` query. -/
def countByDocument (st : CommentsState) (auth : Option Nat) (documentId : Nat) :
    Nat :=
  match auth with
  | none => 0
  | some userId =>
    match findVal st.documents documentId with
    | none => 0
    | some document =>
      if document.ownerId ≠ userId then 0
      else (unresolvedOf st.comments documentId).length

/-- `comments.create` mutation: auth, ownership, insert the comment in
`pending`, insert the selected text as the first `user` message, schedule
`generateAIResponse`. -/
def commentsCreate (st : CommentsState) (auth : Option Nat) (documentId : Nat)
    (commentId : String) (selectedText : String) (now : Nat) :
    Except String (CommentsState × Nat) :=
  match auth with
  | none => .error "Not authenticated"
  | some userId =>
    match findVal st.documents documentId with
    | none => .error "Document not found"
    | some document =>
      if document.ownerId ≠ userId then .error "Document not found"
      else
        let commentDbId := st.nextId
        .ok ({ st with
          comments := st.comments ++
            [(commentDbId,
              { documentId := documentId
                commentId := commentId
                selectedText := selectedText
                status := .pending
                ownerId := userId
                createdAt := now
                resolvedAt := none })]
          messages := st.messages ++
            [{ commentId := commentDbId, role := .user
               content := selectedText, createdAt := now }]
          genJobs := st.genJobs ++
            [.genInitial commentDbId documentId selectedText userId]
          nextId := st.nextId + 1 }, commentDbId)

/-- `comments.addReply` mutation: auth and ownership checks only (the source
has no check of the comment status), append a `user` message, patch status to
`pending`, schedule `generateReply`. -/
def commentsAddReply (st : CommentsState) (auth : Option Nat)
    (commentDbId : Nat) (content : String) (now : Nat) :
    Except String CommentsState :=
  match auth with
  | none => .error "Not authenticated"
  | some userId =>
    match findVal st.comments commentDbId with
    | none => .error "Comment not found"
    | some comment =>
      if comment.ownerId ≠ userId then .error "Comment not found"
      else
        .ok { st with
          messages := st.messages ++
            [{ commentId := commentDbId, role := .user
               content := content, createdAt := now }]
          comments := updateVal st.comments commentDbId
            (fun c => { c with status := .pending })
          genJobs := st.genJobs ++
            [.genReply commentDbId comment.documentId userId] }

/-- `comments.resolve` mutation: auth, ownership, patch `resolvedAt` to the
current time (the status field is not touched). -/
def commentsResolve (st : CommentsState) (auth : Option Nat)
    (commentDbId : Nat) (now : Nat) : Except String CommentsState :=
  match auth with
  | none => .error "Not authenticated"
  | some userId =>
    match findVal st.comments commentDbId with
    | none => .error "Comment not found"
    | some comment =>
      if comment.ownerId ≠ userId then .error "Comment not found"
      else
        .ok { st with
          comments := updateVal st.comments commentDbId
            (fun c => { c with resolvedAt := some now }) }

/-- Prompt built by `generateAIResponse`. -/
def initialPrompt (documentId : Nat) (selectedText : String) : String :=
  "[Context: documentId=" ++ toString documentId ++ "]\n\n" ++ selectedText

/-- Prompt built by `generateReply` from the stored conversation. -/
def replyPrompt (documentId : Nat) (selectedText : String)
    (messages : List Msg) : String :=
  let conversationContext := String.intercalate "\n\n"
    (messages.map (fun m =>
      (if m.role = .user then "Writer" else "Daimon") ++ ": " ++ m.content))
  "[Context: documentId=" ++ toString documentId ++
    "]\n\nPrevious conversation about highlighted text \"" ++ selectedText ++
    "\":\n\n" ++ conversationContext ++
    "\n\nContinue the conversation as Daimon, responding to the writer\x27s latest message."

/-- First half of a scheduled generation action (up to the external call):
consume the queued job, patch the comment to `streaming`
(`updateCommentStatus`), build the prompt and invoke `daimon.generateText`
— note the source calls the module-level default agent `daimon`, never
`createDaimonAgent`.  For `generateReply`, a missing comment makes the
action throw, whose catch patches the comment to `error`. -/
def startGenJob (st : CommentsState) (i : Nat) : CommentsState :=
  match st.genJobs.get? i with
  | none => st
  | some job =>
    let rest := st.genJobs.eraseIdx i
    match job with
    | .genInitial commentDbId documentId selectedText _userId =>
      { st with
        genJobs := rest
        comments := updateVal st.comments commentDbId
          (fun c => { c with status := .streaming })
        genCalls := st.genCalls ++
          [{ config := daimon, prompt := initialPrompt documentId selectedText }]
        running := st.running ++ [{ commentDbId := commentDbId }] }
    | .genReply commentDbId documentId _userId =>
      match findVal st.comments commentDbId with
      | none =>
        { st with
          genJobs := rest
          comments := updateVal st.comments commentDbId
            (fun c => { c with status := .error }) }
      | some comment =>
        { st with
          genJobs := rest
          comments := updateVal st.comments commentDbId
            (fun c => { c with status := .streaming })
          genCalls := st.genCalls ++
            [{ config := daimon
               prompt := replyPrompt documentId comment.selectedText
                 (msgsOf st.messages commentDbId) }]
          running := st.running ++ [{ commentDbId := commentDbId }] }

/-- Second half of a generation action when `generateText` returned text:
`saveAIMessage` (insert an `assistant` message) then `updateCommentStatus`
to `complete`. -/
def finishGenSuccess (st : CommentsState) (i : Nat) (text : String)
    (now : Nat) : CommentsState :=
  match st.running.get? i with
  | none => st
  | some r =>
    { st with
      running := st.running.eraseIdx i
      messages := st.messages ++
        [{ commentId := r.commentDbId, role := .assistant
           content := text, createdAt := now }]
      comments := updateVal st.comments r.commentDbId
        (fun c => { c with status := .complete }) }

/-- Second half of a generation action when `generateText` threw: the catch
block patches the comment to `error` and commits no message. -/
def finishGenError (st : CommentsState) (i : Nat) : CommentsState :=
  match st.running.get? i with
  | none => st
  | some r =>
    { st with
      running := st.running.eraseIdx i
      comments := updateVal st.comments r.commentDbId
        (fun c => { c with status := .error }) }

/-- First `documentSettings` row for a document
(`withIndex("by_documentId")...first()`), with its row id. -/
def findSettingsRow : List (Nat × SettingsRow) → Nat → Option (Nat × SettingsRow)
  | [], _ => none
  | (k, r) :: rest, d =>
    if r.documentId = d then some (k, r) else findSettingsRow rest d

/-- `documentSettings.get` query: `null` on missing auth or ownership,
stored row (flagged `hasCustomSettings := true`) or the defaults object
(flagged `false`). -/
def settingsGet (st : CommentsState) (auth : Option Nat) (documentId : Nat) :
    Option SettingsView :=
  match auth with
  | none => none
  | some userId =>
    match findVal st.documents documentId with
    | none => none
    | some document =>
      if document.ownerId ≠ userId then none
      else
        match findSettingsRow st.settingsRows documentId with
        | some (k, settings) =>
          some { id := some k
                 documentId := settings.documentId
                 model := settings.model
                 provider := settings.provider
                 temperature := settings.temperature
                 maxSteps := settings.maxSteps
                 systemPrompt := settings.systemPrompt
                 description := settings.description
                 tools := settings.tools
                 hasCustomSettings := true }
        | none =>
          some { id := none
                 documentId := documentId
                 model := DEFAULT_SETTINGS.model
                 provider := DEFAULT_SETTINGS.provider
                 temperature := DEFAULT_SETTINGS.temperature
                 maxSteps := DEFAULT_SETTINGS.maxSteps
                 systemPrompt := DEFAULT_SYSTEM_PROMPT
                 description := none
                 tools := DEFAULT_SETTINGS.tools
                 hasCustomSettings := false }

/-- `documentSettings.getInternal` query: stored row or defaults, no auth
check (this is the "resolve effective settings" operation of the spec). -/
def getInternalSettings (rows : List (Nat × SettingsRow)) (documentId : Nat) :
    DocumentSettingsData :=
  match findSettingsRow rows documentId with
  | some (_, settings) =>
    { model := settings.model
      provider := settings.provider
      temperature := settings.temperature
      maxSteps := settings.maxSteps
      systemPrompt := settings.systemPrompt
      description := settings.description
      tools := settings.tools }
  | none =>
    { model := DEFAULT_SETTINGS.model
      provider := DEFAULT_SETTINGS.provider
      temperature := DEFAULT_SETTINGS.temperature
      maxSteps := DEFAULT_SETTINGS.maxSteps
      systemPrompt := DEFAULT_SYSTEM_PROMPT
      description := none
      tools := DEFAULT_SETTINGS.tools }

/-- Arguments of the `documentSettings.upsert` mutation. -/
structure UpsertArgs where
  documentId : Nat
  model : String
  provider : Provider
  temperature : Rat
  maxSteps : Rat
  systemPrompt : String
  description : Option String
  tools : ToolFlags
  deriving Repr, DecidableEq

/-- `documentSettings.upsert` mutation: auth, ownership, range validation of
temperature and maxSteps, then patch the existing row or insert a new one. -/
def settingsUpsert (st : CommentsState) (auth : Option Nat) (args : UpsertArgs)
    (now : Nat) : Except String (CommentsState × Nat) :=
  match auth with
  | none => .error "Not authenticated"
  | some userId =>
    match findVal st.documents args.documentId with
    | none => .error "Document not found or access denied"
    | some document =>
      if document.ownerId ≠ userId then
        .error "Document not found or access denied"
      else if args.temperature < 0 ∨ args.temperature > 2 then
        .error "Temperature must be between 0 and 2"
      else if args.maxSteps < 1 ∨ args.maxSteps > 10 then
        .error "Max steps must be between 1 and 10"
      else
        match findSettingsRow st.settingsRows args.documentId with
        | some (existingId, _) =>
          .ok ({ st with
            settingsRows := updateVal st.settingsRows existingId
              (fun r => { r with
                model := args.model
                provider := args.provider
                temperature := args.temperature
                maxSteps := args.maxSteps
                systemPrompt := args.systemPrompt
                description := args.description
                tools := args.tools
                updatedAt := now }) }, existingId)
        | none =>
          let settingsId := st.nextId
          .ok ({ st with
            settingsRows := st.settingsRows ++
              [(settingsId,
                { documentId := args.documentId
                  ownerId := userId
                  model := args.model
                  provider := args.provider
                  temperature := args.temperature
                  maxSteps := args.maxSteps
                  systemPrompt := args.systemPrompt
                  description := args.description
                  tools := args.tools
                  updatedAt := now })]
            nextId := st.nextId + 1 }, settingsId)

/-- The `settingsToApply` object of `documentSettings.copyFrom`: the source
document's stored row, or the defaults object. -/
def copySourceValues (rows : List (Nat × SettingsRow)) (sourceDocumentId : Nat) :
    DocumentSettingsData :=
  match findSettingsRow rows sourceDocumentId with
  | some (_, s) =>
    { model := s.model, provider := s.provider, temperature := s.temperature
      maxSteps := s.maxSteps, systemPrompt := s.systemPrompt
      description := s.description, tools := s.tools }
  | none =>
    { model := DEFAULT_SETTINGS.model
      provider := DEFAULT_SETTINGS.provider
      temperature := DEFAULT_SETTINGS.temperature
      maxSteps := DEFAULT_SETTINGS.maxSteps
      systemPrompt := DEFAULT_SYSTEM_PROMPT
      description := none
      tools := DEFAULT_SETTINGS.tools }

/-- `documentSettings.copyFrom` mutation: both ownership checks, read the
source's settings-or-defaults, patch or insert the target's row. -/
def settingsCopyFrom (st : CommentsState) (auth : Option Nat)
    (targetDocumentId sourceDocumentId : Nat) (now : Nat) :
    Except String (CommentsState × Nat) :=
  match auth with
  | none => .error "Not authenticated"
  | some userId =>
    match findVal st.documents targetDocumentId with
    | none => .error "Target document not found or access denied"
    | some targetDoc =>
      if targetDoc.ownerId ≠ userId then
        .error "Target document not found or access denied"
      else
        match findVal st.documents sourceDocumentId with
        | none => .error "Source document not found or access denied"
        | some sourceDoc =>
          if sourceDoc.ownerId ≠ userId then
            .error "Source document not found or access denied"
          else
            let settingsToApply := copySourceValues st.settingsRows sourceDocumentId
            match findSettingsRow st.settingsRows targetDocumentId with
            | some (existingTargetId, _) =>
              .ok ({ st with
                settingsRows := updateVal st.settingsRows existingTargetId
                  (fun r => { r with
                    model := settingsToApply.model
                    provider := settingsToApply.provider
                    temperature := settingsToApply.temperature
                    maxSteps := settingsToApply.maxSteps
                    systemPrompt := settingsToApply.systemPrompt
                    description := settingsToApply.description
                    tools := settingsToApply.tools
                    updatedAt := now }) }, existingTargetId)
            | none =>
              let settingsId := st.nextId
              .ok ({ st with
                settingsRows := st.settingsRows ++
                  [(settingsId,
                    { documentId := targetDocumentId
                      ownerId := userId
                      model := settingsToApply.model
                      provider := settingsToApply.provider
                      temperature := settingsToApply.temperature
                      maxSteps := settingsToApply.maxSteps
                      systemPrompt := settingsToApply.systemPrompt
                      description := settingsToApply.description
                      tools := settingsToApply.tools
                      updatedAt := now })]
                nextId := st.nextId + 1 }, settingsId)

/-- The `presetSettingsValidator` object of the documents module (the
unnamed part holding `createWithPreset` / `createWithCopy` /
`createOnboardingDocument`); unlike a stored settings row, its
`description` is a mandatory string. -/
structure PresetSettings where
  model : String
  provider : Provider
  temperature : Rat
  maxSteps : Rat
  systemPrompt : String
  description : String
  tools : ToolFlags
  deriving Repr, DecidableEq

/-- The serialized onboarding TipTap document
(`JSON.stringify(onboardingContent)` in `createOnboardingDocument`).  No
modelled operation, query or claim ever reads a document's `content` blob,
so the multi-kilobyte JSON literal is abbreviated to a marker here. -/
def ONBOARDING_CONTENT : String :=
  "[serialized onboarding TipTap document]"

/-- Assistant message seeded on the "Welcome to Daimon" onboarding
comment. -/
def ONBOARDING_WELCOME_MESSAGE : String :=
  "Hello! I\x27m Daimon, your writing companion. You\x27re reading this in the **comment sidebar**—click the chat icon in the top right to toggle it anytime.\n\nI\x27m here to help you think more deeply about your writing—asking questions, surfacing connections, and prompting new ideas. I never write for you; every word remains yours.\n\nClick the highlighted sections in your document to learn more, or just start writing whenever you\x27re ready."

/-- Assistant message seeded on the "Summoning Daimon & Comments"
onboarding comment. -/
def ONBOARDING_SUMMON_MESSAGE : String :=
  "Try it now! Select any text in this document and press **Cmd+Shift+D** to summon me, or **Cmd+Shift+C** to ask a specific question.\n\nEach comment becomes a conversation thread—you can reply to continue the discussion. I\x27ll appear here in the sidebar with my thoughts.\n\nWhen you\x27re satisfied with a thread, click the checkmark to resolve it and remove the highlight from your text."

/-- Assistant message seeded on the "Adding Research Sources" onboarding
comment. -/
def ONBOARDING_SOURCES_MESSAGE : String :=
  "Sources make me much more useful. When you attach research materials, I can:\n\n• Search through your PDFs and documents\n• Pull relevant quotes and information\n• Generate proper citations (APA, MLA, Chicago)\n\nUpload files up to 10MB, paste URLs for web articles, or add text snippets directly."

/-- Assistant message seeded on the "Customizing Your Experience"
onboarding comment. -/
def ONBOARDING_SETTINGS_MESSAGE : String :=
  "Each document can have its own AI settings:\n\n**Model**: Choose between Claude and OpenAI models\n**Temperature**: Lower = focused & precise, Higher = creative & exploratory\n**System Prompt**: Tell me how you\x27d like me to respond—formal, casual, Socratic, etc.\n\nYou can also copy settings from one document to another when creating new pieces."

/-- `createOnboardingDocument` from the documents module: auth check, then
inserts the onboarding document (fixed title; the `title` argument is
unused by the handler), a settings row when a preset is supplied, and four
comments in status `complete` — each with exactly one `assistant`-role
message and no `user`-role message.  The four `crypto.randomUUID()`
annotation tokens are passed in as arguments. -/
def createOnboardingDocument (st : CommentsState) (auth : Option Nat)
    (_title : String) (preset : Option PresetSettings)
    (welcomeCommentId summonCommentId sourcesCommentId settingsCommentId :
      String) (now : Nat) : Except String (CommentsState × Nat) :=
  match auth with
  | none => .error "Not authenticated"
  | some userId =>
    let documentId := st.nextId
    let st : CommentsState := { st with
      documents := st.documents ++
        [(documentId,
          { title := "Getting Started with Daimon"
            content := ONBOARDING_CONTENT
            ownerId := userId
            updatedAt := now })]
      nextId := st.nextId + 1 }
    let st : CommentsState := match preset with
      | some preset => { st with
          settingsRows := st.settingsRows ++
            [(st.nextId,
              { documentId := documentId
                ownerId := userId
                model := preset.model
                provider := preset.provider
                temperature := preset.temperature
                maxSteps := preset.maxSteps
                systemPrompt := preset.systemPrompt
                description := some preset.description
                tools := preset.tools
                updatedAt := now })]
          nextId := st.nextId + 1 }
      | none => st
    let welcomeDbId := st.nextId
    let st : CommentsState := { st with
      comments := st.comments ++
        [(welcomeDbId,
          { documentId := documentId, commentId := welcomeCommentId
            selectedText := "Welcome to Daimon", status := .complete
            ownerId := userId, createdAt := now, resolvedAt := none })]
      messages := st.messages ++
        [{ commentId := welcomeDbId, role := .assistant
           content := ONBOARDING_WELCOME_MESSAGE, createdAt := now }]
      nextId := st.nextId + 1 }
    let summonDbId := st.nextId
    let st : CommentsState := { st with
      comments := st.comments ++
        [(summonDbId,
          { documentId := documentId, commentId := summonCommentId
            selectedText := "Summoning Daimon & Comments"
            status := .complete
            ownerId := userId, createdAt := now + 1, resolvedAt := none })]
      messages := st.messages ++
        [{ commentId := summonDbId, role := .assistant
           content := ONBOARDING_SUMMON_MESSAGE, createdAt := now + 1 }]
      nextId := st.nextId + 1 }
    let sourcesDbId := st.nextId
    let st : CommentsState := { st with
      comments := st.comments ++
        [(sourcesDbId,
          { documentId := documentId, commentId := sourcesCommentId
            selectedText := "Adding Research Sources", status := .complete
            ownerId := userId, createdAt := now + 2, resolvedAt := none })]
      messages := st.messages ++
        [{ commentId := sourcesDbId, role := .assistant
           content := ONBOARDING_SOURCES_MESSAGE, createdAt := now + 2 }]
      nextId := st.nextId + 1 }
    let settingsDbId := st.nextId
    let st : CommentsState := { st with
      comments := st.comments ++
        [(settingsDbId,
          { documentId := documentId, commentId := settingsCommentId
            selectedText := "Customizing Your Experience"
            status := .complete
            ownerId := userId, createdAt := now + 3, resolvedAt := none })]
      messages := st.messages ++
        [{ commentId := settingsDbId, role := .assistant
           content := ONBOARDING_SETTINGS_MESSAGE, createdAt := now + 3 }]
      nextId := st.nextId + 1 }
    .ok (st, documentId)

/-- Source type union from src/convex/sources.ts. -/
inductive SourceType
  | file
  | web
  | text
  deriving Repr, DecidableEq

/-- Source status union from src/convex/sources.ts. -/
inductive SStatus
  | uploading
  | processing
  | indexed
  | error
  deriving Repr, DecidableEq

/-- `sources` table row. -/
structure SourceRow where
  documentId : Nat
  sourceType : SourceType
  title : String
  storageId : Option Nat
  mimeType : Option String
  url : Option String
  status : SStatus
  errorMessage : Option String
  ragEntryId : Option String
  ownerId : Nat
  createdAt : Nat
  deriving Repr, DecidableEq

/-- An entry of the retrieval (RAG) index, as added by `rag.add`. -/
structure RagEntry where
  entryId : String
  ragNamespace : Nat
  key : Nat
  text : String
  deriving Repr, DecidableEq

/-- A scheduled `internal.sourcesActions.indexSource` job with its
arguments. -/
structure IndexJob where
  sourceId : Nat
  documentId : Nat
  title : String
  extractedText : String
  deriving Repr, DecidableEq

/-- State of the source-indexing part of the backend.  `storageFiles` is
the set of stored blobs, `cleanupJobs` the scheduled
`internal.sourcesActions.cleanupRagEntries` calls (each carrying its
`ragEntryId` argument). -/
structure SourcesState where
  documents : List (Nat × Document)
  sources : List (Nat × SourceRow)
  storageFiles : List Nat
  ragEntries : List RagEntry
  indexJobs : List IndexJob
  cleanupJobs : List String
  nextId : Nat
  deriving Repr, DecidableEq

/-- `sources.createFileSource` mutation: auth, ownership, insert the source
row in `processing`, schedule exactly one `indexSource` job with the
pre-extracted text. -/
def createFileSource (st : SourcesState) (auth : Option Nat)
    (documentId : Nat) (filename : String) (storageId : Nat)
    (mimeType : String) (extractedText : String) (now : Nat) :
    Except String (SourcesState × Nat) :=
  match auth with
  | none => .error "Not authenticated"
  | some userId =>
    match findVal st.documents documentId with
    | none => .error "Document not found or not authorized"
    | some document =>
      if document.ownerId ≠ userId then
        .error "Document not found or not authorized"
      else
        let sourceId := st.nextId
        .ok ({ st with
          sources := st.sources ++
            [(sourceId,
              { documentId := documentId
                sourceType := .file
                title := filename
                storageId := some storageId
                mimeType := some mimeType
                url := none
                status := .processing
                errorMessage := none
                ragEntryId := none
                ownerId := userId
                createdAt := now })]
          indexJobs := st.indexJobs ++
            [{ sourceId := sourceId, documentId := documentId
               title := filename, extractedText := extractedText }]
          nextId := st.nextId + 1 }, sourceId)

/-- `sources.updateStatus` internal mutation: patch status, and patch
`errorMessage` / `ragEntryId` only when the argument is provided. -/
def sourcesUpdateStatus (st : SourcesState) (sourceId : Nat) (status : SStatus)
    (ragEntryId : Option String) (errorMessage : Option String) :
    SourcesState :=
  { st with
    sources := updateVal st.sources sourceId (fun s =>
      let s := { s with status := status }
      let s := match errorMessage with
        | some m => { s with errorMessage := some m }
        | none => s
      match ragEntryId with
      | some e => { s with ragEntryId := some e }
      | none => s) }

/-- The guard `!extractedText || extractedText.trim().length === 0` of the
`indexSource` action: the string is empty or whitespace-only. -/
def isBlank (s : String) : Bool :=
  s.data.all (fun c => c.isWhitespace)

/-- The `indexSource` action: throws on empty / whitespace-only extracted
text (caught and recorded as `error` status with the thrown message), else
calls `rag.add` — its result is passed in as `ragAdd` (`.ok entryId`, or
`.error message` when the external call threw) — stores the returned entry
id and marks the source `indexed`. -/
def indexSourceRun (st : SourcesState) (job : IndexJob)
    (ragAdd : Except String String) : SourcesState :=
  if isBlank job.extractedText then
    sourcesUpdateStatus st job.sourceId .error none
      (some "No text content provided")
  else
    match ragAdd with
    | .ok entryId =>
      let st := { st with
        ragEntries := st.ragEntries ++
          [{ entryId := entryId, ragNamespace := job.documentId
             key := job.sourceId, text := job.extractedText }] }
      sourcesUpdateStatus st job.sourceId .indexed (some entryId) none
    | .error msg =>
      sourcesUpdateStatus st job.sourceId .error none (some msg)

/-- `sources.remove` mutation: auth, ownership, delete the stored blob when
present, delete the source row, and schedule one `cleanupRagEntries` job
iff the row holds a `ragEntryId`. -/
def sourcesRemove (st : SourcesState) (auth : Option Nat) (sourceId : Nat) :
    Except String SourcesState :=
  match auth with
  | none => .error "Not authenticated"
  | some userId =>
    match findVal st.sources sourceId with
    | none => .error "Source not found or not authorized"
    | some source =>
      if source.ownerId ≠ userId then
        .error "Source not found or not authorized"
      else
        let st := match source.storageId with
          | some f => { st with storageFiles := st.storageFiles.erase f }
          | none => st
        let st := { st with sources := eraseKey st.sources sourceId }
        match source.ragEntryId with
        | some e => .ok { st with cleanupJobs := st.cleanupJobs ++ [e] }
        | none => .ok st

/-- A backend state before any comment exists: arbitrary documents and
settings, no comments, no messages, no scheduled or running generation
work.  Source operations live in `SourcesState` and touch none of these
tables, so they are omitted from the comment-subsystem step relation. -/
def initialState (documents : List (Nat × Document))
    (settingsRows : List (Nat × SettingsRow)) (nextId : Nat) : CommentsState :=
  { documents := documents
    settingsRows := settingsRows
    comments := []
    messages := []
    genJobs := []
    running := []
    genCalls := []
    nextId := nextId }

/-- One atomic step of the comment *lifecycle*: a successful user-facing
mutation (`comments.create`, `addReply`, `resolve`, settings `upsert` /
`copyFrom`), or a phase of a scheduled generation action (start up to the
external call; finish after it returned or threw).  This deliberately
covers only the comment-lifecycle operations: of the remaining backend
mutations, the documents module's `create` / `createWithPreset` /
`createWithCopy` / `update` / `archive` / `restore` / `remove` touch only
the `documents` and `documentSettings` tables and so cannot affect the
message invariant, but its `createOnboardingDocument` *does* seed comment
rows and assistant messages — it is covered by `BStep` below and violates
the invariant (claim C4's counterexample). -/
inductive CStep : CommentsState → CommentsState → Prop
  | create (st st' : CommentsState) (auth : Option Nat)
      (documentId : Nat) (commentId selectedText : String) (now id : Nat) :
      commentsCreate st auth documentId commentId selectedText now =
        .ok (st', id) → CStep st st'
  | addReply (st st' : CommentsState) (auth : Option Nat)
      (commentDbId : Nat) (content : String) (now : Nat) :
      commentsAddReply st auth commentDbId content now = .ok st' →
      CStep st st'
  | resolve (st st' : CommentsState) (auth : Option Nat)
      (commentDbId now : Nat) :
      commentsResolve st auth commentDbId now = .ok st' → CStep st st'
  | startJob (st : CommentsState) (i : Nat) : CStep st (startGenJob st i)
  | finishOk (st : CommentsState) (i : Nat) (text : String) (now : Nat) :
      CStep st (finishGenSuccess st i text now)
  | finishErr (st : CommentsState) (i : Nat) : CStep st (finishGenError st i)
  | upsert (st st' : CommentsState) (auth : Option Nat) (args : UpsertArgs)
      (now id : Nat) :
      settingsUpsert st auth args now = .ok (st', id) → CStep st st'
  | copyFrom (st st' : CommentsState) (auth : Option Nat)
      (targetDocumentId sourceDocumentId now id : Nat) :
      settingsCopyFrom st auth targetDocumentId sourceDocumentId now =
        .ok (st', id) → CStep st st'

/-- States reachable from an empty-comment-subsystem state through the
comment-lifecycle operations alone (`CStep`).  This deliberately excludes
the onboarding seeding mutation; `BStep` / `ReachableOnb` include it, and
the C4 counterexample shows the message invariant fails there. -/
def Reachable (documents : List (Nat × Document))
    (settingsRows : List (Nat × SettingsRow)) (nextId : Nat)
    (st : CommentsState) : Prop :=
  Relation.ReflTransGen CStep (initialState documents settingsRows nextId) st

/-- One atomic step of the backend acting on the comment / settings tables:
a comment-lifecycle step, or a successful run of the documents module's
`createOnboardingDocument` seeding mutation. -/
inductive BStep : CommentsState → CommentsState → Prop
  | lifecycle (st st' : CommentsState) : CStep st st' → BStep st st'
  | onboarding (st st' : CommentsState) (auth : Option Nat) (title : String)
      (preset : Option PresetSettings)
      (welcomeCommentId summonCommentId sourcesCommentId settingsCommentId :
        String) (now id : Nat) :
      createOnboardingDocument st auth title preset welcomeCommentId
          summonCommentId sourcesCommentId settingsCommentId now =
        .ok (st', id) →
      BStep st st'

/-- States reachable once the onboarding seeding mutation is included. -/
def ReachableOnb (documents : List (Nat × Document))
    (settingsRows : List (Nat × SettingsRow)) (nextId : Nat)
    (st : CommentsState) : Prop :=
  Relation.ReflTransGen BStep (initialState documents settingsRows nextId) st

/-- Some `user`-role message of the given comment exists. -/
def hasUserMsg (messages : List Msg) (commentDbId : Nat) : Prop :=
  ∃ m ∈ messages, m.commentId = commentDbId ∧ m.role = .user

/-- Inductive invariant for claim C4: every comment row, every message and
every piece of scheduled or in-flight generation work points at a comment
that already has a `user`-role message. -/
def CommentInvariant (st : CommentsState) : Prop :=
  (∀ p ∈ st.comments, hasUserMsg st.messages p.1) ∧
    (∀ m ∈ st.messages, hasUserMsg st.messages m.commentId) ∧
    (∀ j ∈ st.genJobs, hasUserMsg st.messages j.commentDbId) ∧
    (∀ r ∈ st.running, hasUserMsg st.messages r.commentDbId)

/-- Whether a mutation threw. -/
def isErr {α : Type} : Except String α → Bool
  | .error _ => true
  | .ok _ => false

/-! ### Concrete states used by counterexamples and witnesses -/

/-- A document owned by user 7. -/
def sampleDoc : Document :=
  { title := "Essay", content := "", ownerId := 7, updatedAt := 0 }

def c1St0 : CommentsState := initialState [(5, sampleDoc)] [] 10

/-- After `create` on document 5: comment 10 in `pending`, one user
message, one scheduled `generateAIResponse` job. -/
def c1St1 : CommentsState :=
  match commentsCreate c1St0 (some 7) 5 "tok-1" "The fox jumps." 1 with
  | .ok (s, _) => s
  | .error _ => c1St0

/-- After the scheduled job started: comment 10 is `streaming` and the
external generation call is in flight. -/
def c1St2 : CommentsState := startGenJob c1St1 0

/-- `addReply` issued while comment 10 is `streaming` with a dispatch
outstanding. -/
def c1St3 : CommentsState :=
  match commentsAddReply c1St2 (some 7) 10 "And then?" 2 with
  | .ok s => s
  | .error _ => c1St2

/-- Custom settings stored for document 5: temperature 1.2, model gpt-4.1,
web search enabled. -/
def c2Row : SettingsRow :=
  { documentId := 5, ownerId := 7, model := "gpt-4.1", provider := .openai
    temperature := mkRat 12 10, maxSteps := 3, systemPrompt := "Be terse."
    description := none
    tools := { searchSources := false, webSearch := true, citation := false }
    updatedAt := 0 }

def c2St0 : CommentsState := initialState [(5, sampleDoc)] [(9, c2Row)] 10

def c2St1 : CommentsState :=
  match commentsCreate c2St0 (some 7) 5 "tok-2" "orbital mechanics" 1 with
  | .ok (s, _) => s
  | .error _ => c2St0

/-- The scheduled generation dispatch for comment 10 has invoked the
external generation call. -/
def c2St2 : CommentsState := startGenJob c2St1 0

/-- A comment in `complete`, unresolved, owned by user 7. -/
def c3Comment : Comment :=
  { documentId := 5, commentId := "tok-3", selectedText := "The fox jumps."
    status := .complete, ownerId := 7, createdAt := 0, resolvedAt := none }

def c3St0 : CommentsState :=
  { initialState [(5, sampleDoc)] [] 10 with comments := [(4, c3Comment)] }

def c3St1 : CommentsState :=
  match commentsResolve c3St0 (some 7) 4 1 with
  | .ok s => s
  | .error _ => c3St0

def c3St2 : CommentsState :=
  match commentsResolve c3St1 (some 7) 4 2 with
  | .ok s => s
  | .error _ => c3St1

/-- Reachable state for the C4 witness: one `create` followed by the start
and successful finish of its generation job. -/
def c4St1 : CommentsState :=
  match commentsCreate (initialState [(5, sampleDoc)] [] 0) (some 7) 5
      "tok-4" "The fox jumps." 1 with
  | .ok (s, _) => s
  | .error _ => initialState [(5, sampleDoc)] [] 0

def c4St2 : CommentsState := startGenJob c4St1 0

def c4St3 : CommentsState := finishGenSuccess c4St2 0 "A nimble image." 2

/-- State reached from an empty store by one `createOnboardingDocument`
step (user 7, no preset, at time 5): document 0 plus the four seeded
comments 1–4, each with a lone assistant message. -/
def c4OnbSt : CommentsState :=
  match createOnboardingDocument (initialState [] [] 0) (some 7) "My Doc"
      none "tok-w" "tok-s" "tok-o" "tok-e" 5 with
  | .ok (s, _) => s
  | .error _ => initialState [] [] 0

/-- Upsert arguments used by the C5 witness. -/
def c5Args : UpsertArgs :=
  { documentId := 5, model := "gpt-4.1", provider := .openai
    temperature := mkRat 12 10, maxSteps := 3, systemPrompt := "Be terse."
    description := some "A short essay."
    tools := { searchSources := true, webSearch := true, citation := false } }

def c5St0 : CommentsState := initialState [(5, sampleDoc)] [] 10

/-- Two documents of user 7; document 2 has custom settings, document 1 has
none. -/
def c7St0 : CommentsState :=
  initialState [(1, sampleDoc), (2, sampleDoc)]
    [(9, { c2Row with documentId := 2 })] 10

/-- A file source of user 7 on document 5, still `processing`. -/
def c8Row : SourceRow :=
  { documentId := 5, sourceType := .file, title := "notes.pdf"
    storageId := some 77, mimeType := some "application/pdf", url := none
    status := .processing, errorMessage := none, ragEntryId := none
    ownerId := 7, createdAt := 0 }

def c8St0 : SourcesState :=
  { documents := [(5, sampleDoc)], sources := [(3, c8Row)]
    storageFiles := [77], ragEntries := [], indexJobs := []
    cleanupJobs := [], nextId := 10 }

/-- The scheduled indexing job of source 3 whose extracted text is
whitespace-only. -/
def c8Job : IndexJob :=
  { sourceId := 3, documentId := 5, title := "notes.pdf"
    extractedText := "   " }

/-- Indexing job of source 3 with real text, for the C9 witness. -/
def c9Job : IndexJob :=
  { sourceId := 3, documentId := 5, title := "notes.pdf"
    extractedText := "The fox jumps." }

/-- Source state after source 3 was successfully indexed (rag returned
entry id e1). -/
def c9St1 : SourcesState := indexSourceRun c8St0 c9Job (.ok "e1")

/-- A second, errored source of user 7 with no stored entry reference. -/
def c9ErrRow : SourceRow :=
  { c8Row with status := .error
               errorMessage := some "No text content provided"
               storageId := none }

def c9St2 : SourcesState := { c8St0 with sources := [(3, c9ErrRow)] }

/-- Observable payload of a `documentSettings.get` result (everything the
round-trip claims compare, which excludes the row id). -/
def viewFields (v : SettingsView) :
    String × Provider × Rat × Rat × String × Option String × ToolFlags × Bool :=
  (v.model, v.provider, v.temperature, v.maxSteps, v.systemPrompt,
    v.description, v.tools, v.hasCustomSettings)

/-! ## Store lemmas -/

theorem findVal_updateVal {α : Type} (s : List (Nat × α)) (k : Nat)
    (f : α → α) : findVal (updateVal s k f) k = (findVal s k).map f := by
  induction s with
  | nil => rfl
  | cons p rest ih =>
    obtain ⟨k', v⟩ := p
    by_cases h : k' = k
    · subst h
      simp [findVal, updateVal]
    · simp [findVal, updateVal, h, ih]

theorem findVal_eraseKey {α : Type} (s : List (Nat × α)) (k : Nat) :
    findVal (eraseKey s k) k = none := by
  induction s with
  | nil => rfl
  | cons p rest ih =>
    obtain ⟨k', v⟩ := p
    by_cases h : k' = k
    · simp [eraseKey, h, ih]
    · simp [eraseKey, findVal, h, ih]

theorem fst_mem_updateVal {α : Type} {s : List (Nat × α)} {k : Nat}
    {f : α → α} {p : Nat × α} (hp : p ∈ updateVal s k f) :
    ∃ q ∈ s, p.1 = q.1 := by
  induction s with
  | nil => simp [updateVal] at hp
  | cons q rest ih =>
    obtain ⟨k', v⟩ := q
    by_cases h : k' = k
    · simp only [updateVal, if_pos h] at hp
      rcases List.mem_cons.mp hp with h' | h'
      · exact ⟨(k', v), List.mem_cons_self _ _, by simp [h']⟩
      · obtain ⟨q, hq, hpq⟩ := ih h'
        exact ⟨q, List.mem_cons_of_mem _ hq, hpq⟩
    · simp only [updateVal, if_neg h] at hp
      rcases List.mem_cons.mp hp with h' | h'
      · exact ⟨(k', v), List.mem_cons_self _ _, by simp [h']⟩
      · obtain ⟨q, hq, hpq⟩ := ih h'
        exact ⟨q, List.mem_cons_of_mem _ hq, hpq⟩

theorem updateVal_comp {α : Type} (s : List (Nat × α)) (k : Nat)
    (f g : α → α) :
    updateVal (updateVal s k f) k g = updateVal s k (fun x => g (f x)) := by
  induction s with
  | nil => rfl
  | cons p rest ih =>
    obtain ⟨k', v⟩ := p
    by_cases h : k' = k <;> simp [updateVal, h, ih]

theorem mem_of_get? {α : Type} {l : List α} {i : Nat} {a : α}
    (h : l.get? i = some a) : a ∈ l :=
  List.get?_mem h

theorem mem_of_mem_eraseIdx {α : Type} {l : List α} {i : Nat} {a : α}
    (h : a ∈ l.eraseIdx i) : a ∈ l :=
  (List.eraseIdx_sublist l i).mem h

theorem findSettingsRow_updateVal {s : List (Nat × SettingsRow)} {k : Nat}
    {r : SettingsRow} {d : Nat} {f : SettingsRow → SettingsRow}
    (hf : ∀ x, (f x).documentId = x.documentId)
    (h : findSettingsRow s d = some (k, r)) :
    findSettingsRow (updateVal s k f) d = some (k, f r) := by
  induction s with
  | nil => simp [findSettingsRow] at h
  | cons p rest ih =>
    obtain ⟨k', v⟩ := p
    by_cases hd : v.documentId = d
    · simp only [findSettingsRow, if_pos hd] at h
      obtain ⟨hk, hv⟩ := Prod.mk.injEq .. ▸ Option.some.injEq .. ▸ h
      subst hk; subst hv
      simp [updateVal, findSettingsRow, hf, hd]
    · simp only [findSettingsRow, if_neg hd] at h
      by_cases hk : k' = k
      · subst hk
        simp [updateVal, findSettingsRow, hf, hd, ih h]
      · simp [updateVal, findSettingsRow, hk, hd, ih h]

theorem findSettingsRow_append_new {s : List (Nat × SettingsRow)} {d n : Nat}
    {r : SettingsRow} (h : findSettingsRow s d = none) (hr : r.documentId = d) :
    findSettingsRow (s ++ [(n, r)]) d = some (n, r) := by
  induction s with
  | nil => simp [findSettingsRow, hr]
  | cons p rest ih =>
    obtain ⟨k', v⟩ := p
    by_cases hd : v.documentId = d
    · simp [findSettingsRow, hd] at h
    · simp only [findSettingsRow, if_neg hd] at h
      simp [findSettingsRow, hd, ih h]

theorem findSettingsRow_updateVal_other {s : List (Nat × SettingsRow)}
    {k d : Nat} {f : SettingsRow → SettingsRow}
    (hf : ∀ x, (f x).documentId = x.documentId)
    (hk : ∀ p ∈ s, p.1 = k → p.2.documentId ≠ d) :
    findSettingsRow (updateVal s k f) d = findSettingsRow s d := by
  induction s with
  | nil => rfl
  | cons p rest ih =>
    obtain ⟨k', v⟩ := p
    have ihrest := ih (fun q hq => hk q (List.mem_cons_of_mem _ hq))
    by_cases hkk : k' = k
    · have hvd : v.documentId ≠ d := hk (k', v) (List.mem_cons_self _ _) hkk
      simp [updateVal, findSettingsRow, hkk, hf, hvd, ihrest]
    · by_cases hd : v.documentId = d
      · simp [updateVal, findSettingsRow, hkk, hd]
      · simp [updateVal, findSettingsRow, hkk, hd, ihrest]

theorem findSettingsRow_append_other {s : List (Nat × SettingsRow)} {d n : Nat}
    {r : SettingsRow} (hr : r.documentId ≠ d) :
    findSettingsRow (s ++ [(n, r)]) d = findSettingsRow s d := by
  induction s with
  | nil => simp [findSettingsRow, hr]
  | cons p rest ih =>
    obtain ⟨k', v⟩ := p
    by_cases hd : v.documentId = d
    · simp [findSettingsRow, hd]
    · simp [findSettingsRow, hd, ih]

theorem findSettingsRow_mem {s : List (Nat × SettingsRow)} {d k : Nat}
    {r : SettingsRow} (h : findSettingsRow s d = some (k, r)) :
    (k, r) ∈ s ∧ r.documentId = d := by
  induction s with
  | nil => simp [findSettingsRow] at h
  | cons p rest ih =>
    obtain ⟨k', v⟩ := p
    by_cases hd : v.documentId = d
    · simp only [findSettingsRow, if_pos hd] at h
      obtain ⟨hk, hv⟩ := Prod.mk.injEq .. ▸ Option.some.injEq .. ▸ h
      subst hk; subst hv
      exact ⟨List.mem_cons_self _ _, hd⟩
    · simp only [findSettingsRow, if_neg hd] at h
      obtain ⟨hm, hdd⟩ := ih h
      exact ⟨List.mem_cons_of_mem _ hm, hdd⟩

theorem keys_nodup_eq {α : Type} {s : List (Nat × α)} {p q : Nat × α}
    (hnd : (s.map Prod.fst).Nodup) (hp : p ∈ s) (hq : q ∈ s)
    (hfst : p.1 = q.1) : p = q := by
  induction s with
  | nil => simp at hp
  | cons x rest ih =>
    simp only [List.map_cons, List.nodup_cons] at hnd
    obtain ⟨hx, hrest⟩ := hnd
    rcases List.mem_cons.mp hp with hp' | hp' <;>
      rcases List.mem_cons.mp hq with hq' | hq'
    · rw [hp', hq']
    · exfalso
      apply hx
      have hm : q.1 ∈ rest.map Prod.fst := List.mem_map_of_mem Prod.fst hq'
      rwa [← hfst, hp'] at hm
    · exfalso
      apply hx
      have hm : p.1 ∈ rest.map Prod.fst := List.mem_map_of_mem Prod.fst hp'
      rwa [hfst, hq'] at hm
    · exact ih hrest hp' hq'

theorem mem_unresolvedOf {s : List (Nat × Comment)} {d : Nat}
    {p : Nat × Comment} (hp : p ∈ unresolvedOf s d) :
    p ∈ s ∧ p.2.documentId = d ∧ p.2.resolvedAt = none := by
  induction s with
  | nil => simp [unresolvedOf] at hp
  | cons q rest ih =>
    obtain ⟨k', v⟩ := q
    by_cases hd : v.documentId = d ∧ v.resolvedAt = none
    · simp only [unresolvedOf, if_pos hd] at hp
      rcases List.mem_cons.mp hp with h' | h'
      · subst h'
        exact ⟨List.mem_cons_self _ _, hd⟩
      · obtain ⟨hm, h1, h2⟩ := ih h'
        exact ⟨List.mem_cons_of_mem _ hm, h1, h2⟩
    · simp only [unresolvedOf, if_neg hd] at hp
      obtain ⟨hm, h1, h2⟩ := ih hp
      exact ⟨List.mem_cons_of_mem _ hm, h1, h2⟩

theorem unresolvedOf_updateVal_resolve {s : List (Nat × Comment)}
    {cid now d : Nat} {p : Nat × Comment}
    (hp : p ∈ unresolvedOf
      (updateVal s cid (fun c => { c with resolvedAt := some now })) d) :
    p.1 ≠ cid := by
  induction s with
  | nil => simp [updateVal, unresolvedOf] at hp
  | cons q rest ih =>
    obtain ⟨k', v⟩ := q
    by_cases hk : k' = cid
    · simp only [updateVal, if_pos hk] at hp
      have : ¬(({ v with resolvedAt := some now } : Comment).documentId = d ∧
          ({ v with resolvedAt := some now } : Comment).resolvedAt = none) := by
        simp
      simp only [unresolvedOf, if_neg this] at hp
      exact ih hp
    · simp only [updateVal, if_neg hk] at hp
      by_cases hd : v.documentId = d ∧ v.resolvedAt = none
      · simp only [unresolvedOf, if_pos hd] at hp
        rcases List.mem_cons.mp hp with h' | h'
        · subst h'
          exact hk
        · exact ih h'
      · simp only [unresolvedOf, if_neg hd] at hp
        exact ih hp

theorem hasUserMsg_append {ms ms' : List Msg} {c : Nat}
    (h : hasUserMsg ms c) : hasUserMsg (ms ++ ms') c := by
  obtain ⟨m, hm, hc, hr⟩ := h
  exact ⟨m, List.mem_append_left _ hm, hc, hr⟩

theorem hasUserMsg_new {ms : List Msg} {m : Msg} (hc : m.commentId = c)
    (hr : m.role = .user) : hasUserMsg (ms ++ [m]) c :=
  ⟨m, List.mem_append_right _ (List.mem_singleton.mpr rfl), hc, hr⟩

/-! ## Characterisations of the successful mutations -/

theorem commentsCreate_ok_elim {st st' : CommentsState} {auth : Option Nat}
    {documentId : Nat} {commentId selectedText : String} {now id : Nat}
    (h : commentsCreate st auth documentId commentId selectedText now =
      .ok (st', id)) :
    ∃ userId document, auth = some userId ∧
      findVal st.documents documentId = some document ∧
      document.ownerId = userId ∧ id = st.nextId ∧
      st' = { st with
        comments := st.comments ++
          [(st.nextId,
            { documentId := documentId, commentId := commentId
              selectedText := selectedText, status := .pending
              ownerId := userId, createdAt := now, resolvedAt := none })]
        messages := st.messages ++
          [{ commentId := st.nextId, role := .user
             content := selectedText, createdAt := now }]
        genJobs := st.genJobs ++
          [.genInitial st.nextId documentId selectedText userId]
        nextId := st.nextId + 1 } := by
  cases auth with
  | none => exact Except.noConfusion h
  | some userId =>
    simp only [commentsCreate] at h
    split at h
    · exact Except.noConfusion h
    · next document hdoc =>
      split at h
      · exact Except.noConfusion h
      · next hown =>
        injection h with h1
        injection h1 with ha hb
        exact ⟨userId, document, rfl, hdoc, not_not.mp hown, hb.symm, ha.symm⟩

theorem commentsAddReply_ok_elim {st st' : CommentsState} {auth : Option Nat}
    {commentDbId : Nat} {content : String} {now : Nat}
    (h : commentsAddReply st auth commentDbId content now = .ok st') :
    ∃ userId comment, auth = some userId ∧
      findVal st.comments commentDbId = some comment ∧
      comment.ownerId = userId ∧
      st' = { st with
        messages := st.messages ++
          [{ commentId := commentDbId, role := .user
             content := content, createdAt := now }]
        comments := updateVal st.comments commentDbId
          (fun c => { c with status := .pending })
        genJobs := st.genJobs ++
          [.genReply commentDbId comment.documentId userId] } := by
  cases auth with
  | none => exact Except.noConfusion h
  | some userId =>
    simp only [commentsAddReply] at h
    split at h
    · exact Except.noConfusion h
    · next comment hc =>
      split at h
      · exact Except.noConfusion h
      · next hown =>
        injection h with h1
        exact ⟨userId, comment, rfl, hc, not_not.mp hown, h1.symm⟩

theorem commentsResolve_ok_elim {st st' : CommentsState} {auth : Option Nat}
    {commentDbId now : Nat}
    (h : commentsResolve st auth commentDbId now = .ok st') :
    ∃ userId comment, auth = some userId ∧
      findVal st.comments commentDbId = some comment ∧
      comment.ownerId = userId ∧
      st' = { st with
        comments := updateVal st.comments commentDbId
          (fun c => { c with resolvedAt := some now }) } := by
  cases auth with
  | none => exact Except.noConfusion h
  | some userId =>
    simp only [commentsResolve] at h
    split at h
    · exact Except.noConfusion h
    · next comment hc =>
      split at h
      · exact Except.noConfusion h
      · next hown =>
        injection h with h1
        exact ⟨userId, comment, rfl, hc, not_not.mp hown, h1.symm⟩

theorem settingsUpsert_ok_frame {st st' : CommentsState} {auth : Option Nat}
    {args : UpsertArgs} {now id : Nat}
    (h : settingsUpsert st auth args now = .ok (st', id)) :
    st'.documents = st.documents ∧ st'.comments = st.comments ∧
      st'.messages = st.messages ∧ st'.genJobs = st.genJobs ∧
      st'.running = st.running := by
  simp only [settingsUpsert] at h
  repeat' split at h
  all_goals
    first
      | exact Except.noConfusion h
      | (injection h with h1; injection h1 with ha hb; subst ha;
         exact ⟨rfl, rfl, rfl, rfl, rfl⟩)

theorem settingsCopyFrom_ok_frame {st st' : CommentsState} {auth : Option Nat}
    {targetDocumentId sourceDocumentId now id : Nat}
    (h : settingsCopyFrom st auth targetDocumentId sourceDocumentId now =
      .ok (st', id)) :
    st'.documents = st.documents ∧ st'.comments = st.comments ∧
      st'.messages = st.messages ∧ st'.genJobs = st.genJobs ∧
      st'.running = st.running := by
  simp only [settingsCopyFrom] at h
  repeat' split at h
  all_goals
    first
      | exact Except.noConfusion h
      | (injection h with h1; injection h1 with ha hb; subst ha;
         exact ⟨rfl, rfl, rfl, rfl, rfl⟩)

/-- Every step of the comment subsystem preserves the user-message
invariant. -/
theorem cstep_preserves {st st' : CommentsState} (h : CStep st st')
    (inv : CommentInvariant st) : CommentInvariant st' := by
  obtain ⟨invC, invM, invJ, invR⟩ := inv
  cases h with
  | create st2 auth documentId commentId selectedText now id hok =>
    obtain ⟨u, doc, hau, hdoc, hown, hid, hst⟩ := commentsCreate_ok_elim hok
    subst hst
    refine ⟨?_, ?_, ?_, ?_⟩
    · intro p hp
      rcases List.mem_append.mp hp with hp | hp
      · exact hasUserMsg_append (invC p hp)
      · rw [List.mem_singleton.mp hp]
        exact hasUserMsg_new rfl rfl
    · intro m hm
      rcases List.mem_append.mp hm with hm | hm
      · exact hasUserMsg_append (invM m hm)
      · rw [List.mem_singleton.mp hm]
        exact hasUserMsg_new rfl rfl
    · intro j hj
      rcases List.mem_append.mp hj with hj | hj
      · exact hasUserMsg_append (invJ j hj)
      · rw [List.mem_singleton.mp hj]
        exact hasUserMsg_new rfl rfl
    · intro r hr
      exact hasUserMsg_append (invR r hr)
  | addReply st2 auth commentDbId content now hok =>
    obtain ⟨u, comment, hau, hc, hown, hst⟩ := commentsAddReply_ok_elim hok
    subst hst
    refine ⟨?_, ?_, ?_, ?_⟩
    · intro p hp
      obtain ⟨q, hq, hpq⟩ := fst_mem_updateVal hp
      rw [hpq]
      exact hasUserMsg_append (invC q hq)
    · intro m hm
      rcases List.mem_append.mp hm with hm | hm
      · exact hasUserMsg_append (invM m hm)
      · rw [List.mem_singleton.mp hm]
        exact hasUserMsg_new rfl rfl
    · intro j hj
      rcases List.mem_append.mp hj with hj | hj
      · exact hasUserMsg_append (invJ j hj)
      · rw [List.mem_singleton.mp hj]
        exact hasUserMsg_new rfl rfl
    · intro r hr
      exact hasUserMsg_append (invR r hr)
  | resolve st2 auth commentDbId now hok =>
    obtain ⟨u, comment, hau, hc, hown, hst⟩ := commentsResolve_ok_elim hok
    subst hst
    refine ⟨?_, invM, invJ, invR⟩
    intro p hp
    obtain ⟨q, hq, hpq⟩ := fst_mem_updateVal hp
    rw [hpq]
    exact invC q hq
  | startJob i =>
    cases hj : st.genJobs.get? i with
    | none =>
      simpa only [startGenJob, hj] using ⟨invC, invM, invJ, invR⟩
    | some job =>
      have hjm := invJ job (mem_of_get? hj)
      cases job with
      | genInitial cid d sel u =>
        simp only [startGenJob, hj]
        refine ⟨?_, invM, ?_, ?_⟩
        · intro p hp
          obtain ⟨q, hq, hpq⟩ := fst_mem_updateVal hp
          rw [hpq]
          exact invC q hq
        · intro j hjj
          exact invJ j (mem_of_mem_eraseIdx hjj)
        · intro r hr
          rcases List.mem_append.mp hr with hr | hr
          · exact invR r hr
          · rw [List.mem_singleton.mp hr]
            exact hjm
      | genReply cid d u =>
        cases hc : findVal st.comments cid with
        | none =>
          simp only [startGenJob, hj, hc]
          refine ⟨?_, invM, ?_, invR⟩
          · intro p hp
            obtain ⟨q, hq, hpq⟩ := fst_mem_updateVal hp
            rw [hpq]
            exact invC q hq
          · intro j hjj
            exact invJ j (mem_of_mem_eraseIdx hjj)
        | some comment =>
          simp only [startGenJob, hj, hc]
          refine ⟨?_, invM, ?_, ?_⟩
          · intro p hp
            obtain ⟨q, hq, hpq⟩ := fst_mem_updateVal hp
            rw [hpq]
            exact invC q hq
          · intro j hjj
            exact invJ j (mem_of_mem_eraseIdx hjj)
          · intro r hr
            rcases List.mem_append.mp hr with hr | hr
            · exact invR r hr
            · rw [List.mem_singleton.mp hr]
              exact hjm
  | finishOk i text now =>
    cases hr : st.running.get? i with
    | none =>
      simpa only [finishGenSuccess, hr] using ⟨invC, invM, invJ, invR⟩
    | some r =>
      have hrm := invR r (mem_of_get? hr)
      simp only [finishGenSuccess, hr]
      refine ⟨?_, ?_, ?_, ?_⟩
      · intro p hp
        obtain ⟨q, hq, hpq⟩ := fst_mem_updateVal hp
        rw [hpq]
        exact hasUserMsg_append (invC q hq)
      · intro m hm
        rcases List.mem_append.mp hm with hm | hm
        · exact hasUserMsg_append (invM m hm)
        · rw [List.mem_singleton.mp hm]
          exact hasUserMsg_append hrm
      · intro j hj
        exact hasUserMsg_append (invJ j hj)
      · intro r' hr'
        exact hasUserMsg_append (invR r' (mem_of_mem_eraseIdx hr'))
  | finishErr i =>
    cases hr : st.running.get? i with
    | none =>
      simpa only [finishGenError, hr] using ⟨invC, invM, invJ, invR⟩
    | some r =>
      simp only [finishGenError, hr]
      refine ⟨?_, invM, invJ, ?_⟩
      · intro p hp
        obtain ⟨q, hq, hpq⟩ := fst_mem_updateVal hp
        rw [hpq]
        exact invC q hq
      · intro r' hr'
        exact invR r' (mem_of_mem_eraseIdx hr')
  | upsert st2 auth args now id hok =>
    obtain ⟨hd, hc, hm, hj, hr⟩ := settingsUpsert_ok_frame hok
    exact ⟨hc ▸ hm ▸ invC, hm ▸ invM, hm ▸ hj ▸ invJ, hm ▸ hr ▸ invR⟩
  | copyFrom st2 auth targetDocumentId sourceDocumentId now id hok =>
    obtain ⟨hd, hc, hm, hj, hr⟩ := settingsCopyFrom_ok_frame hok
    exact ⟨hc ▸ hm ▸ invC, hm ▸ invM, hm ▸ hj ▸ invJ, hm ▸ hr ▸ invR⟩

/-! ## Claim theorems -/

/-- Claim C1, as stated, is false on the code: `addReply` has no status
guard.  At this concrete input comment 10 is `streaming` with its
generation dispatch outstanding, yet `addReply` is accepted (not rejected,
not a no-op): it appends a user message, re-enters `pending`, and schedules
a second generation dispatch. -/
theorem c1_addReply_streaming_accepted_cex :
    (findVal c1St2.comments 10).map (·.status) = some .streaming ∧
      c1St2.running.length = 1 ∧
      commentsAddReply c1St2 (some 7) 10 "And then?" 2 = .ok c1St3 ∧
      c1St3.messages.length = c1St2.messages.length + 1 ∧
      (findVal c1St3.comments 10).map (·.status) = some .pending ∧
      c1St3.genJobs.length = c1St2.genJobs.length + 1 :=
  ⟨by decide, by decide, rfl, by decide, by decide, by decide⟩

/-- Claim C1 (amended): `addReply` checks only authentication and comment
ownership.  Whatever the comment's current status — including `pending` and
`streaming` with a dispatch outstanding — it succeeds, appends the user
message, transitions the comment to `pending`, and schedules another
generation dispatch, so more than one dispatch can be outstanding for the
same comment. -/
theorem c1_addReply_no_status_guard (st : CommentsState)
    (userId commentDbId : Nat) (comment : Comment) (content : String)
    (now : Nat) (hc : findVal st.comments commentDbId = some comment)
    (hown : comment.ownerId = userId) :
    commentsAddReply st (some userId) commentDbId content now =
      .ok { st with
        messages := st.messages ++
          [{ commentId := commentDbId, role := .user
             content := content, createdAt := now }]
        comments := updateVal st.comments commentDbId
          (fun c => { c with status := .pending })
        genJobs := st.genJobs ++
          [.genReply commentDbId comment.documentId userId] } := by
  simp only [commentsAddReply, hc]
  rw [if_neg (not_not_intro hown)]

theorem c1_addReply_no_status_guard_witness :
    commentsAddReply c1St2 (some 7) 10 "Go on" 3 =
      .ok { c1St2 with
        messages := c1St2.messages ++
          [{ commentId := 10, role := .user
             content := "Go on", createdAt := 3 }]
        comments := updateVal c1St2.comments 10
          (fun c => { c with status := .pending })
        genJobs := c1St2.genJobs ++ [.genReply 10 5 7] } :=
  c1_addReply_no_status_guard c1St2 7 10
    { documentId := 5, commentId := "tok-1", selectedText := "The fox jumps."
      status := .streaming, ownerId := 7, createdAt := 1, resolvedAt := none }
    "Go on" 3 (by decide) rfl

/-- Claim C2, as stated, is false on the code: the dispatch for a comment on
document 5 — whose stored settings have temperature 1.2, model gpt-4.1 and
the web-search tool — invokes the external generation call with the fixed
default agent (temperature 0.7), not with an agent built from the
document's effective settings. -/
theorem c2_dispatch_ignores_settings_cex :
    c2St2.genCalls.map (fun c => c.config.temperature) = [mkRat 7 10] ∧
      (createDaimonAgent (getInternalSettings c2St2.settingsRows 5)).temperature
        = mkRat 12 10 ∧
      ¬ c2St2.genCalls.map (fun c => c.config) =
          [createDaimonAgent (getInternalSettings c2St2.settingsRows 5)] :=
  ⟨by decide, by decide, by decide⟩

/-- Claim C2 (amended): every generation dispatch — initial or reply —
invokes the external generation call with the fixed module-level default
agent `daimon` (default system prompt, anthropic model
claude-sonnet-4-5-20250929, temperature 0.7, maxSteps 5, searchSources tool
only); the document's stored `DocumentSettings` and the
`createDaimonAgent` factory are never consulted by the dispatch path. -/
theorem c2_dispatch_uses_default_agent :
    (∀ (st : CommentsState) (i commentDbId documentId userId : Nat)
        (selectedText : String),
      st.genJobs.get? i =
        some (.genInitial commentDbId documentId selectedText userId) →
      (startGenJob st i).genCalls = st.genCalls ++
        [{ config := daimon
           prompt := initialPrompt documentId selectedText }]) ∧
      (∀ (st : CommentsState) (i commentDbId documentId userId : Nat)
          (comment : Comment),
        st.genJobs.get? i = some (.genReply commentDbId documentId userId) →
        findVal st.comments commentDbId = some comment →
        (startGenJob st i).genCalls = st.genCalls ++
          [{ config := daimon
             prompt := replyPrompt documentId comment.selectedText
               (msgsOf st.messages commentDbId) }]) ∧
      daimon = { provider := .anthropic
                 model := "claude-sonnet-4-5-20250929"
                 instructions := DEFAULT_SYSTEM_PROMPT
                 temperature := mkRat 7 10
                 maxSteps := 5
                 tools := ["searchSources"] } := by
  refine ⟨?_, ?_, rfl⟩
  · intro st i commentDbId documentId userId selectedText hj
    simp only [startGenJob, hj]
  · intro st i commentDbId documentId userId comment hj hc
    simp only [startGenJob, hj, hc]

theorem c2_dispatch_uses_default_agent_witness :
    c2St2.genCalls = c2St1.genCalls ++
      [{ config := daimon, prompt := initialPrompt 5 "orbital mechanics" }] :=
  c2_dispatch_uses_default_agent.1 c2St1 0 10 5 7 "orbital mechanics"
    (by decide)

/-- Claim C3, as stated, is false on the code: `resolve` patches
`resolvedAt` to `Date.now()` on every call, so a second resolve at a later
time re-stamps the timestamp — at this concrete input the second call
succeeds but changes the stored state from `resolvedAt = 1` to
`resolvedAt = 2`, hence it is not a no-op. -/
theorem c3_resolve_restamps_cex :
    commentsResolve c3St0 (some 7) 4 1 = .ok c3St1 ∧
      commentsResolve c3St1 (some 7) 4 2 = .ok c3St2 ∧
      (findVal c3St1.comments 4).map (·.resolvedAt) = some (some 1) ∧
      (findVal c3St2.comments 4).map (·.resolvedAt) = some (some 2) ∧
      c3St2 ≠ c3St1 :=
  ⟨rfl, rfl, by decide, by decide, by decide⟩

/-- Claim C3 (amended): `resolve` by the owning user sets `resolvedAt` and
does not alter the status field; a second resolve raises no error, leaves
the status, messages, jobs and every other table unchanged, and leaves the
comment resolved — but it overwrites `resolvedAt` with the second call's
timestamp, so it is a strict no-op only when the two calls carry the same
timestamp (final conjunct). -/
theorem c3_resolve_idempotent_amended (st : CommentsState)
    (userId commentDbId : Nat) (comment : Comment) (t1 t2 : Nat)
    (hc : findVal st.comments commentDbId = some comment)
    (hown : comment.ownerId = userId) :
    ∃ st1 st2,
      commentsResolve st (some userId) commentDbId t1 = .ok st1 ∧
      commentsResolve st1 (some userId) commentDbId t2 = .ok st2 ∧
      (findVal st2.comments commentDbId).map (·.status) =
        some comment.status ∧
      (findVal st2.comments commentDbId).map (·.resolvedAt) =
        some (some t2) ∧
      st2.messages = st.messages ∧ st2.genJobs = st.genJobs ∧
      st2.running = st.running ∧ st2.genCalls = st.genCalls ∧
      st2.documents = st.documents ∧ st2.settingsRows = st.settingsRows ∧
      st2.nextId = st.nextId ∧
      commentsResolve st1 (some userId) commentDbId t1 = .ok st1 := by
  have h1 : commentsResolve st (some userId) commentDbId t1 =
      .ok { st with comments := (updateVal st.comments commentDbId
        (fun c => { c with resolvedAt := some t1 })) } := by
    simp only [commentsResolve, hc]
    rw [if_neg (not_not_intro hown)]
  have hc2 : findVal (updateVal st.comments commentDbId
      (fun c => { c with resolvedAt := some t1 })) commentDbId =
      some { comment with resolvedAt := some t1 } := by
    rw [findVal_updateVal, hc]
    rfl
  have hown2 : ({ comment with resolvedAt := some t1 } : Comment).ownerId
      = userId := hown
  have h2 : commentsResolve
      { st with comments := (updateVal st.comments commentDbId
        (fun c => { c with resolvedAt := some t1 })) }
      (some userId) commentDbId t2 =
      .ok { st with comments := (updateVal
        (updateVal st.comments commentDbId
          (fun c => { c with resolvedAt := some t1 }))
        commentDbId (fun c => { c with resolvedAt := some t2 })) } := by
    simp only [commentsResolve, hc2]
    rw [if_neg (not_not_intro hown2)]
  have hidem : commentsResolve
      { st with comments := (updateVal st.comments commentDbId
        (fun c => { c with resolvedAt := some t1 })) }
      (some userId) commentDbId t1 =
      .ok { st with comments := (updateVal st.comments commentDbId
        (fun c => { c with resolvedAt := some t1 })) } := by
    simp only [commentsResolve, hc2]
    rw [if_neg (not_not_intro hown2)]
    rw [updateVal_comp]
  refine ⟨_, _, h1, h2, ?_, ?_, rfl, rfl, rfl, rfl, rfl, rfl, rfl, hidem⟩
  · rw [findVal_updateVal, hc2]
    rfl
  · rw [findVal_updateVal, hc2]
    rfl

/-- The amended C3 at a concrete input: resolve comment 4 at time 1, then
again at time 2. -/
theorem c3_resolve_idempotent_amended_witness :
    ∃ st1 st2,
      commentsResolve c3St0 (some 7) 4 1 = .ok st1 ∧
      commentsResolve st1 (some 7) 4 2 = .ok st2 ∧
      (findVal st2.comments 4).map (·.status) = some c3Comment.status ∧
      (findVal st2.comments 4).map (·.resolvedAt) = some (some 2) ∧
      st2.messages = c3St0.messages ∧ st2.genJobs = c3St0.genJobs ∧
      st2.running = c3St0.running ∧ st2.genCalls = c3St0.genCalls ∧
      st2.documents = c3St0.documents ∧
      st2.settingsRows = c3St0.settingsRows ∧
      st2.nextId = c3St0.nextId ∧
      commentsResolve st1 (some 7) 4 1 = .ok st1 :=
  c3_resolve_idempotent_amended c3St0 7 4 c3Comment 1 2 (by decide) rfl

/-- Claim C4, as stated over the whole program, is false: the documents
module's `createOnboardingDocument` mutation seeds comments whose only
message is assistant-role.  At this concrete input, the state reached by
one onboarding step from an empty store contains comment 1 (status
`complete`) carrying an assistant message while no `user`-role message for
it exists anywhere. -/
theorem c4_onboarding_assistant_only_cex :
    ReachableOnb [] [] 0 c4OnbSt ∧
      (findVal c4OnbSt.comments 1).map (·.status) = some .complete ∧
      (∃ m ∈ c4OnbSt.messages, m.commentId = 1 ∧ m.role = .assistant) ∧
      ¬ hasUserMsg c4OnbSt.messages 1 := by
  refine ⟨?_, by decide, by decide, by simp only [hasUserMsg]; decide⟩
  exact Relation.ReflTransGen.tail Relation.ReflTransGen.refl
    (BStep.onboarding _ _ (some 7) "My Doc" none "tok-w" "tok-s" "tok-o"
      "tok-e" 5 0 rfl)

/-- Claim C4 (amended): in every state reachable through the
comment-lifecycle operations — `comments.create`, `addReply`, `resolve`,
the generation jobs, and the settings mutations — every comment row has at
least one `user`-role message, and every `assistant`-role message belongs
to a comment that has a `user`-role message.  Messages are append-only, so
the user message existed before the assistant message was appended:
`create` inserts the selected text as a `user` message in the same
transaction that inserts the comment, and the lifecycle appends assistant
messages only from a generation job scheduled afterwards.  The invariant
does not extend to the onboarding seeding mutation
(`c4_onboarding_assistant_only_cex`): comments seeded by
`createOnboardingDocument` carry a lone assistant message. -/
theorem c4_user_message_precedes_assistant
    (documents : List (Nat × Document))
    (settingsRows : List (Nat × SettingsRow)) (nextId : Nat)
    (st : CommentsState) (h : Reachable documents settingsRows nextId st) :
    (∀ p ∈ st.comments, hasUserMsg st.messages p.1) ∧
      (∀ m ∈ st.messages, m.role = .assistant →
        hasUserMsg st.messages m.commentId) := by
  simp only [Reachable] at h
  have inv : CommentInvariant st := by
    induction h with
    | refl =>
      refine ⟨?_, ?_, ?_, ?_⟩ <;> simp [initialState]
    | tail hsteps hstep ih => exact cstep_preserves hstep ih
  exact ⟨inv.1, fun m hm _ => inv.2.1 m hm⟩

/-- Claim C5: for an authenticated owner and in-range values, `upsert`
followed by `get` on the same document returns exactly the written model,
provider, temperature, maxSteps, systemPrompt, description and tools, with
`hasCustomSettings = true`. -/
theorem c5_upsert_get_roundtrip (st : CommentsState) (userId : Nat)
    (document : Document) (args : UpsertArgs) (now : Nat)
    (hdoc : findVal st.documents args.documentId = some document)
    (hown : document.ownerId = userId)
    (htl : 0 ≤ args.temperature) (htu : args.temperature ≤ 2)
    (hsl : 1 ≤ args.maxSteps) (hsu : args.maxSteps ≤ 10) :
    ∃ st' settingsId,
      settingsUpsert st (some userId) args now = .ok (st', settingsId) ∧
      (settingsGet st' (some userId) args.documentId).map viewFields =
        some (args.model, args.provider, args.temperature, args.maxSteps,
          args.systemPrompt, args.description, args.tools, true) := by
  have hv1 : ¬(args.temperature < 0 ∨ args.temperature > 2) := by
    push_neg
    exact ⟨htl, htu⟩
  have hv2 : ¬(args.maxSteps < 1 ∨ args.maxSteps > 10) := by
    push_neg
    exact ⟨hsl, hsu⟩
  cases hrow : findSettingsRow st.settingsRows args.documentId with
  | some p =>
    obtain ⟨k, r⟩ := p
    have heq : settingsUpsert st (some userId) args now = .ok ({ st with settingsRows := (updateVal st.settingsRows k (fun r => { r with model := args.model, provider := args.provider, temperature := args.temperature, maxSteps := args.maxSteps, systemPrompt := args.systemPrompt, description := args.description, tools := args.tools, updatedAt := now })) }, k) := by
      simp only [settingsUpsert, hdoc]
      rw [if_neg (not_not_intro hown), if_neg hv1, if_neg hv2, hrow]
    refine ⟨_, k, heq, ?_⟩
    have hfind := findSettingsRow_updateVal (f := (fun r => { r with model := args.model, provider := args.provider, temperature := args.temperature, maxSteps := args.maxSteps, systemPrompt := args.systemPrompt, description := args.description, tools := args.tools, updatedAt := now })) (fun _ => rfl) hrow
    simp only [settingsGet, hdoc]
    rw [if_neg (not_not_intro hown), hfind]
    rfl
  | none =>
    have heq : settingsUpsert st (some userId) args now = .ok ({ st with settingsRows := (st.settingsRows ++ [(st.nextId, { documentId := args.documentId, ownerId := userId, model := args.model, provider := args.provider, temperature := args.temperature, maxSteps := args.maxSteps, systemPrompt := args.systemPrompt, description := args.description, tools := args.tools, updatedAt := now })]), nextId := st.nextId + 1 }, st.nextId) := by
      simp only [settingsUpsert, hdoc]
      rw [if_neg (not_not_intro hown), if_neg hv1, if_neg hv2, hrow]
    refine ⟨_, st.nextId, heq, ?_⟩
    have hfind := findSettingsRow_append_new (n := st.nextId) (r := { documentId := args.documentId, ownerId := userId, model := args.model, provider := args.provider, temperature := args.temperature, maxSteps := args.maxSteps, systemPrompt := args.systemPrompt, description := args.description, tools := args.tools, updatedAt := now }) hrow rfl
    simp only [settingsGet, hdoc]
    rw [if_neg (not_not_intro hown), hfind]
    rfl

theorem c5_upsert_get_roundtrip_witness :
    ∃ st' settingsId,
      settingsUpsert c5St0 (some 7) c5Args 0 = .ok (st', settingsId) ∧
      (settingsGet st' (some 7) c5Args.documentId).map viewFields =
        some (c5Args.model, c5Args.provider, c5Args.temperature,
          c5Args.maxSteps, c5Args.systemPrompt, c5Args.description,
          c5Args.tools, true) :=
  c5_upsert_get_roundtrip c5St0 7 sampleDoc c5Args 0 (by decide) rfl
    (by decide) (by decide) (by decide) (by decide)

/-- Claim C6: for an authenticated owner, `upsert` throws (and, returning
`Except.error`, writes nothing) exactly when the temperature is outside
[0, 2] or maxSteps is outside [1, 10]. -/
theorem c6_upsert_range_validation (st : CommentsState) (userId : Nat)
    (document : Document) (args : UpsertArgs) (now : Nat)
    (hdoc : findVal st.documents args.documentId = some document)
    (hown : document.ownerId = userId) :
    isErr (settingsUpsert st (some userId) args now) = true ↔
      (args.temperature < 0 ∨ args.temperature > 2 ∨
        args.maxSteps < 1 ∨ args.maxSteps > 10) := by
  simp only [settingsUpsert, hdoc]
  rw [if_neg (not_not_intro hown)]
  by_cases h1 : args.temperature < 0 ∨ args.temperature > 2
  · rw [if_pos h1]
    simp only [isErr, true_iff]
    tauto
  · rw [if_neg h1]
    by_cases h2 : args.maxSteps < 1 ∨ args.maxSteps > 10
    · rw [if_pos h2]
      simp only [isErr, true_iff]
      tauto
    · rw [if_neg h2]
      cases hrow : findSettingsRow st.settingsRows args.documentId with
      | some p =>
        obtain ⟨k, r⟩ := p
        simp only [isErr, false_iff]
        tauto
      | none =>
        simp only [isErr, false_iff]
        tauto

/-- The C6 boundary inputs: -0.1, 2.1, 0 and 11 are rejected; 0.0, 2.0,
1 and 10 are accepted (temperature 1.2 / maxSteps 3 of `c5Args` in-range).
The first conjunct instantiates the iff theorem. -/
theorem c6_upsert_range_validation_witness :
    isErr (settingsUpsert c5St0 (some 7)
      { c5Args with temperature := mkRat (-1) 10 } 0) = true ∧
      isErr (settingsUpsert c5St0 (some 7)
        { c5Args with temperature := mkRat 21 10 } 0) = true ∧
      isErr (settingsUpsert c5St0 (some 7)
        { c5Args with maxSteps := 0 } 0) = true ∧
      isErr (settingsUpsert c5St0 (some 7)
        { c5Args with maxSteps := 11 } 0) = true ∧
      isErr (settingsUpsert c5St0 (some 7)
        { c5Args with temperature := 0 } 0) = false ∧
      isErr (settingsUpsert c5St0 (some 7)
        { c5Args with temperature := 2 } 0) = false ∧
      isErr (settingsUpsert c5St0 (some 7)
        { c5Args with maxSteps := 1 } 0) = false ∧
      isErr (settingsUpsert c5St0 (some 7)
        { c5Args with maxSteps := 10 } 0) = false :=
  ⟨(c6_upsert_range_validation c5St0 7 sampleDoc
      { c5Args with temperature := mkRat (-1) 10 } 0 (by decide) rfl).mpr
      (by decide),
    by decide, by decide, by decide, by decide, by decide, by decide,
    by decide⟩

/-- Claim C7: `copyFrom` with both documents owned by the caller (and
distinct row ids in the settings table, which the store guarantees) writes
the source document's stored settings — or the defaults when the source has
no row — onto the target as an insert or patch; afterwards the target
reports exactly the copied values with `hasCustomSettings = true`, and the
source document's settings are unchanged. -/
theorem c7_copyFrom_correct (st : CommentsState) (userId : Nat)
    (targetDoc sourceDoc : Document)
    (targetDocumentId sourceDocumentId now : Nat)
    (hnd : (st.settingsRows.map Prod.fst).Nodup)
    (htd : findVal st.documents targetDocumentId = some targetDoc)
    (htown : targetDoc.ownerId = userId)
    (hsd : findVal st.documents sourceDocumentId = some sourceDoc)
    (hsown : sourceDoc.ownerId = userId)
    (hne : targetDocumentId ≠ sourceDocumentId) :
    ∃ st' settingsId,
      settingsCopyFrom st (some userId) targetDocumentId sourceDocumentId
        now = .ok (st', settingsId) ∧
      (settingsGet st' (some userId) targetDocumentId).map viewFields =
        some ((copySourceValues st.settingsRows sourceDocumentId).model,
          (copySourceValues st.settingsRows sourceDocumentId).provider,
          (copySourceValues st.settingsRows sourceDocumentId).temperature,
          (copySourceValues st.settingsRows sourceDocumentId).maxSteps,
          (copySourceValues st.settingsRows sourceDocumentId).systemPrompt,
          (copySourceValues st.settingsRows sourceDocumentId).description,
          (copySourceValues st.settingsRows sourceDocumentId).tools,
          true) ∧
      settingsGet st' (some userId) sourceDocumentId =
        settingsGet st (some userId) sourceDocumentId := by
  cases hrow : findSettingsRow st.settingsRows targetDocumentId with
  | some p =>
    obtain ⟨kT, rT⟩ := p
    have hmem := findSettingsRow_mem hrow
    have hk : ∀ q ∈ st.settingsRows, q.1 = kT →
        q.2.documentId ≠ sourceDocumentId := by
      intro q hq hqk
      have hq2 : q = (kT, rT) := keys_nodup_eq hnd hq hmem.1 hqk
      rw [hq2, hmem.2]
      exact hne
    have heq : settingsCopyFrom st (some userId) targetDocumentId sourceDocumentId now = .ok ({ st with settingsRows := (updateVal st.settingsRows kT (fun r => { r with model := (copySourceValues st.settingsRows sourceDocumentId).model, provider := (copySourceValues st.settingsRows sourceDocumentId).provider, temperature := (copySourceValues st.settingsRows sourceDocumentId).temperature, maxSteps := (copySourceValues st.settingsRows sourceDocumentId).maxSteps, systemPrompt := (copySourceValues st.settingsRows sourceDocumentId).systemPrompt, description := (copySourceValues st.settingsRows sourceDocumentId).description, tools := (copySourceValues st.settingsRows sourceDocumentId).tools, updatedAt := now })) }, kT) := by
      simp only [settingsCopyFrom, htd, hsd]
      rw [if_neg (not_not_intro htown), if_neg (not_not_intro hsown), hrow]
    refine ⟨_, kT, heq, ?_, ?_⟩
    · have hfind := findSettingsRow_updateVal (f := (fun r => { r with model := (copySourceValues st.settingsRows sourceDocumentId).model, provider := (copySourceValues st.settingsRows sourceDocumentId).provider, temperature := (copySourceValues st.settingsRows sourceDocumentId).temperature, maxSteps := (copySourceValues st.settingsRows sourceDocumentId).maxSteps, systemPrompt := (copySourceValues st.settingsRows sourceDocumentId).systemPrompt, description := (copySourceValues st.settingsRows sourceDocumentId).description, tools := (copySourceValues st.settingsRows sourceDocumentId).tools, updatedAt := now })) (fun _ => rfl) hrow
      simp only [settingsGet, htd]
      rw [if_neg (not_not_intro htown), hfind]
      rfl
    · have hsame := findSettingsRow_updateVal_other (f := (fun r => { r with model := (copySourceValues st.settingsRows sourceDocumentId).model, provider := (copySourceValues st.settingsRows sourceDocumentId).provider, temperature := (copySourceValues st.settingsRows sourceDocumentId).temperature, maxSteps := (copySourceValues st.settingsRows sourceDocumentId).maxSteps, systemPrompt := (copySourceValues st.settingsRows sourceDocumentId).systemPrompt, description := (copySourceValues st.settingsRows sourceDocumentId).description, tools := (copySourceValues st.settingsRows sourceDocumentId).tools, updatedAt := now })) (d := sourceDocumentId) (fun _ => rfl) hk
      simp only [settingsGet, hsd]
      rw [if_neg (not_not_intro hsown), if_neg (not_not_intro hsown), hsame]
  | none =>
    have heq : settingsCopyFrom st (some userId) targetDocumentId sourceDocumentId now = .ok ({ st with settingsRows := (st.settingsRows ++ [(st.nextId, { documentId := targetDocumentId, ownerId := userId, model := (copySourceValues st.settingsRows sourceDocumentId).model, provider := (copySourceValues st.settingsRows sourceDocumentId).provider, temperature := (copySourceValues st.settingsRows sourceDocumentId).temperature, maxSteps := (copySourceValues st.settingsRows sourceDocumentId).maxSteps, systemPrompt := (copySourceValues st.settingsRows sourceDocumentId).systemPrompt, description := (copySourceValues st.settingsRows sourceDocumentId).description, tools := (copySourceValues st.settingsRows sourceDocumentId).tools, updatedAt := now })]), nextId := st.nextId + 1 }, st.nextId) := by
      simp only [settingsCopyFrom, htd, hsd]
      rw [if_neg (not_not_intro htown), if_neg (not_not_intro hsown), hrow]
    refine ⟨_, st.nextId, heq, ?_, ?_⟩
    · have hfind := findSettingsRow_append_new (n := st.nextId) (r := { documentId := targetDocumentId, ownerId := userId, model := (copySourceValues st.settingsRows sourceDocumentId).model, provider := (copySourceValues st.settingsRows sourceDocumentId).provider, temperature := (copySourceValues st.settingsRows sourceDocumentId).temperature, maxSteps := (copySourceValues st.settingsRows sourceDocumentId).maxSteps, systemPrompt := (copySourceValues st.settingsRows sourceDocumentId).systemPrompt, description := (copySourceValues st.settingsRows sourceDocumentId).description, tools := (copySourceValues st.settingsRows sourceDocumentId).tools, updatedAt := now }) hrow rfl
      simp only [settingsGet, htd]
      rw [if_neg (not_not_intro htown), hfind]
      rfl
    · have hsame := findSettingsRow_append_other (s := st.settingsRows) (n := st.nextId) (r := { documentId := targetDocumentId, ownerId := userId, model := (copySourceValues st.settingsRows sourceDocumentId).model, provider := (copySourceValues st.settingsRows sourceDocumentId).provider, temperature := (copySourceValues st.settingsRows sourceDocumentId).temperature, maxSteps := (copySourceValues st.settingsRows sourceDocumentId).maxSteps, systemPrompt := (copySourceValues st.settingsRows sourceDocumentId).systemPrompt, description := (copySourceValues st.settingsRows sourceDocumentId).description, tools := (copySourceValues st.settingsRows sourceDocumentId).tools, updatedAt := now }) (d := sourceDocumentId) hne
      simp only [settingsGet, hsd]
      rw [if_neg (not_not_intro hsown), if_neg (not_not_intro hsown), hsame]

/-- The C7 scenario at a concrete input: copy from document 2 (custom
settings, temperature 1.2) onto document 1 (no settings row). -/
theorem c7_copyFrom_correct_witness :
    ∃ st' settingsId,
      settingsCopyFrom c7St0 (some 7) 1 2 3 = .ok (st', settingsId) ∧
      (settingsGet st' (some 7) 1).map viewFields =
        some ((copySourceValues c7St0.settingsRows 2).model,
          (copySourceValues c7St0.settingsRows 2).provider,
          (copySourceValues c7St0.settingsRows 2).temperature,
          (copySourceValues c7St0.settingsRows 2).maxSteps,
          (copySourceValues c7St0.settingsRows 2).systemPrompt,
          (copySourceValues c7St0.settingsRows 2).description,
          (copySourceValues c7St0.settingsRows 2).tools,
          true) ∧
      settingsGet st' (some 7) 2 = settingsGet c7St0 (some 7) 2 :=
  c7_copyFrom_correct c7St0 7 sampleDoc sampleDoc 1 2 3 (by decide)
    (by decide) rfl (by decide) rfl (by decide)

theorem c4_user_message_precedes_assistant_witness :
    (∀ p ∈ c4St3.comments, hasUserMsg c4St3.messages p.1) ∧
      (∀ m ∈ c4St3.messages, m.role = .assistant →
        hasUserMsg c4St3.messages m.commentId) := by
  have s1 : CStep (initialState [(5, sampleDoc)] [] 0) c4St1 :=
    CStep.create _ _ (some 7) 5 "tok-4" "The fox jumps." 1 0 rfl
  have s2 : CStep c4St1 c4St2 := CStep.startJob c4St1 0
  have s3 : CStep c4St2 c4St3 := CStep.finishOk c4St2 0 "A nimble image." 2
  exact c4_user_message_precedes_assistant [(5, sampleDoc)] [] 0 c4St3
    (Relation.ReflTransGen.tail
      (Relation.ReflTransGen.tail
        (Relation.ReflTransGen.tail Relation.ReflTransGen.refl s1) s2) s3)

/-- Claim C8: when the indexing job runs for a source whose extracted text
is empty or whitespace-only (`isBlank`, the source's
`!text || text.trim().length === 0` guard; and regardless of what the
external retrieval-add call would have returned — it is never made), it
sets the source's status
to `error` with the message "No text content provided" — never to `indexed`
— and adds nothing to the retrieval index. -/
theorem c8_indexSource_empty_text_error (st : SourcesState) (job : IndexJob)
    (row : SourceRow) (ragAdd : Except String String)
    (hempty : isBlank job.extractedText = true)
    (hrow : findVal st.sources job.sourceId = some row) :
    findVal (indexSourceRun st job ragAdd).sources job.sourceId =
      some { row with status := .error
                      errorMessage := some "No text content provided" } ∧
      (indexSourceRun st job ragAdd).ragEntries = st.ragEntries := by
  constructor
  · simp only [indexSourceRun]
    rw [if_pos hempty]
    simp only [sourcesUpdateStatus]
    rw [findVal_updateVal, hrow]
    rfl
  · simp only [indexSourceRun]
    rw [if_pos hempty]
    rfl

theorem c8_indexSource_empty_text_error_witness :
    findVal (indexSourceRun c8St0 c8Job (.ok "unused")).sources 3 =
      some { c8Row with status := .error
                        errorMessage := some "No text content provided" } ∧
      (indexSourceRun c8St0 c8Job (.ok "unused")).ragEntries =
        c8St0.ragEntries :=
  c8_indexSource_empty_text_error c8St0 c8Job c8Row (.ok "unused")
    (by decide) (by decide)

/-- Claim C9: a successful indexing run stores the entry reference returned
by the retrieval index on the source row (first conjunct); `remove` by the
owner then deletes the source row and any stored file payload, and
schedules exactly one retrieval-index deletion job carrying that stored
entry reference — or no cleanup job at all when the row holds no entry
reference (second conjunct). -/
theorem c9_remove_cleanup_scheduling :
    (∀ (st : SourcesState) (job : IndexJob) (entryId : String)
        (row : SourceRow),
      ¬ isBlank job.extractedText = true →
      findVal st.sources job.sourceId = some row →
      findVal (indexSourceRun st job (.ok entryId)).sources job.sourceId =
        some { row with status := .indexed, ragEntryId := some entryId } ∧
        (indexSourceRun st job (.ok entryId)).cleanupJobs = st.cleanupJobs) ∧
      (∀ (st : SourcesState) (userId sourceId : Nat) (row : SourceRow),
        findVal st.sources sourceId = some row →
        row.ownerId = userId →
        ∃ st', sourcesRemove st (some userId) sourceId = .ok st' ∧
          findVal st'.sources sourceId = none ∧
          st'.cleanupJobs = st.cleanupJobs ++
            (match row.ragEntryId with
              | some entryId => [entryId]
              | none => []) ∧
          st'.storageFiles =
            (match row.storageId with
              | some fileId => st.storageFiles.erase fileId
              | none => st.storageFiles)) := by
  constructor
  · intro st job entryId row hne hrow
    constructor
    · simp only [indexSourceRun]
      rw [if_neg hne]
      simp only [sourcesUpdateStatus]
      rw [findVal_updateVal, hrow]
      rfl
    · simp only [indexSourceRun]
      rw [if_neg hne]
      rfl
  · intro st userId sourceId row hrow hown
    cases hsid : row.storageId with
    | some fileId =>
      cases hrg : row.ragEntryId with
      | some entryId =>
        have heq : sourcesRemove st (some userId) sourceId = .ok { st with storageFiles := st.storageFiles.erase fileId, sources := (eraseKey st.sources sourceId), cleanupJobs := st.cleanupJobs ++ [entryId] } := by
          simp only [sourcesRemove, hrow, hsid, hrg]
          rw [if_neg (not_not_intro hown)]
        exact ⟨_, heq, findVal_eraseKey st.sources sourceId, rfl, rfl⟩
      | none =>
        have heq : sourcesRemove st (some userId) sourceId = .ok { st with storageFiles := st.storageFiles.erase fileId, sources := (eraseKey st.sources sourceId) } := by
          simp only [sourcesRemove, hrow, hsid, hrg]
          rw [if_neg (not_not_intro hown)]
        exact ⟨_, heq, findVal_eraseKey st.sources sourceId, by simp, rfl⟩
    | none =>
      cases hrg : row.ragEntryId with
      | some entryId =>
        have heq : sourcesRemove st (some userId) sourceId = .ok { st with sources := (eraseKey st.sources sourceId), cleanupJobs := st.cleanupJobs ++ [entryId] } := by
          simp only [sourcesRemove, hrow, hsid, hrg]
          rw [if_neg (not_not_intro hown)]
        exact ⟨_, heq, findVal_eraseKey st.sources sourceId, rfl, rfl⟩
      | none =>
        have heq : sourcesRemove st (some userId) sourceId = .ok { st with sources := (eraseKey st.sources sourceId) } := by
          simp only [sourcesRemove, hrow, hsid, hrg]
          rw [if_neg (not_not_intro hown)]
        exact ⟨_, heq, findVal_eraseKey st.sources sourceId, by simp, rfl⟩

/-- The C9 scenarios at concrete inputs: indexing source 3 with real text
stores entry reference e1, and removing it schedules exactly the cleanup
job for e1; removing the errored source (no entry reference) schedules
none. -/
theorem c9_remove_cleanup_scheduling_witness :
    (findVal c9St1.sources 3 =
        some { c8Row with status := .indexed, ragEntryId := some "e1" } ∧
      c9St1.cleanupJobs = c8St0.cleanupJobs) ∧
      (∃ st', sourcesRemove c9St1 (some 7) 3 = .ok st' ∧
        findVal st'.sources 3 = none ∧
        st'.cleanupJobs = c9St1.cleanupJobs ++ ["e1"] ∧
        st'.storageFiles = c9St1.storageFiles.erase 77) ∧
      (∃ st', sourcesRemove c9St2 (some 7) 3 = .ok st' ∧
        findVal st'.sources 3 = none ∧
        st'.cleanupJobs = c9St2.cleanupJobs ∧
        st'.storageFiles = c9St2.storageFiles) := by
  refine ⟨c9_remove_cleanup_scheduling.1 c8St0 c9Job "e1" c8Row (by decide)
    (by decide), ?_, ?_⟩
  · exact c9_remove_cleanup_scheduling.2 c9St1 7 3
      { c8Row with status := .indexed, ragEntryId := some "e1" }
      (by decide) rfl
  · exact c9_remove_cleanup_scheduling.2 c9St2 7 3 c9ErrRow (by decide) rfl

/-- Claim C10: `listByDocument` returns only comments whose `resolvedAt` is
unset; `countByDocument` counts exactly the listed comments; and after a
successful `resolve` the comment row still exists (now carrying the
resolution timestamp) but no longer appears in any `listByDocument`
result. -/
theorem c10_queries_only_unresolved :
    (∀ (st : CommentsState) (auth : Option Nat) (documentId : Nat)
        (x : Nat × Comment × List Msg),
      x ∈ listByDocument st auth documentId → x.2.1.resolvedAt = none) ∧
      (∀ (st : CommentsState) (auth : Option Nat) (documentId : Nat),
        countByDocument st auth documentId =
          (listByDocument st auth documentId).length) ∧
      (∀ (st st' : CommentsState) (userId commentDbId now : Nat)
          (comment : Comment),
        findVal st.comments commentDbId = some comment →
        comment.ownerId = userId →
        commentsResolve st (some userId) commentDbId now = .ok st' →
        findVal st'.comments commentDbId =
          some { comment with resolvedAt := some now } ∧
          ∀ (documentId : Nat) (x : Nat × Comment × List Msg),
            x ∈ listByDocument st' (some userId) documentId →
            x.1 ≠ commentDbId) := by
  refine ⟨?_, ?_, ?_⟩
  · intro st auth documentId x hx
    simp only [listByDocument] at hx
    repeat' split at hx
    all_goals
      first
        | (obtain ⟨p, hp, hxp⟩ := List.mem_map.mp hx
           obtain ⟨hm, hd, hres⟩ := mem_unresolvedOf hp
           rw [← hxp]
           exact hres)
        | simp at hx
  · intro st auth documentId
    simp only [countByDocument, listByDocument]
    repeat' split
    all_goals simp
  · intro st st' userId commentDbId now comment hc hown hok
    obtain ⟨u0, c0, hau0, hc0, hown0, hst⟩ := commentsResolve_ok_elim hok
    have hcc : c0 = comment := by
      rw [hc] at hc0
      exact (Option.some.injEq .. ▸ hc0).symm
    subst hst
    constructor
    · rw [findVal_updateVal, hc]
      rfl
    · intro d x hx
      simp only [listByDocument] at hx
      repeat' split at hx
      all_goals
        first
          | (obtain ⟨p, hp, hxp⟩ := List.mem_map.mp hx
             have hne := unresolvedOf_updateVal_resolve hp
             rw [← hxp]
             exact hne)
          | simp at hx

/-- The C10 parts at a concrete input: document 5 with unresolved comment 4,
then resolved at time 1. -/
theorem c10_queries_only_unresolved_witness :
    (∀ (x : Nat × Comment × List Msg),
      x ∈ listByDocument c3St0 (some 7) 5 → x.2.1.resolvedAt = none) ∧
      countByDocument c3St0 (some 7) 5 =
        (listByDocument c3St0 (some 7) 5).length ∧
      findVal c3St1.comments 4 =
        some { c3Comment with resolvedAt := some 1 } ∧
      ∀ (documentId : Nat) (x : Nat × Comment × List Msg),
        x ∈ listByDocument c3St1 (some 7) documentId → x.1 ≠ 4 := by
  have h3 := c10_queries_only_unresolved.2.2 c3St0 c3St1 7 4 1 c3Comment
    (by decide) rfl rfl
  exact ⟨fun x hx => c10_queries_only_unresolved.1 c3St0 (some 7) 5 x hx,
    c10_queries_only_unresolved.2.1 c3St0 (some 7) 5, h3.1, h3.2⟩


end Daimon
